import Mathlib

/-!
# go-to-do: the task service of `main.go`

A shallow embedding of the two HTTP handlers `Server.SaveTask` and
`Server.ListTasks` and of `Server.InitializeDB`, together with the parts of
the libraries they call:

* `encoding/json`: the scanner (`scanner.go`), the decoding of a value into
  the `Task` struct (`decode.go`) and the encoding of a `[]Task` (`encode.go`);
* `database/sql` over `go-sqlite3`: the three statements the program issues,
  run against a store that holds the table `reqs`;
* `net/http`: `http.Error`, `WriteHeader` and `Write` on a response.

What the model takes as given:

* Go's `int` is 64 bits wide, and a request body is a `String`, so only bodies
  that are valid UTF-8 are covered;
* the store is the database file of this program: its table `reqs`, when it is
  there, has the schema of `InitializeDB`;
* a failure of the engine that comes neither from the statement nor from the
  table (an I/O error, a locked file) is an input of the call, with its error
  text: `fault` for `Exec`, a `QueryFault` for `Query` and the `Next` calls;
* calls run one after the other.
-/

namespace GoToDo

/-! ## encoding/json: values and the scanner -/

/-- A JSON value. A number keeps its literal text, which is what the decoder
hands to `strconv.ParseInt`. -/
inductive JSON where
  | null
  | bool (b : Bool)
  | num (lit : String)
  | str (s : String)
  | arr (xs : List JSON)
  | obj (ms : List (String × JSON))

deriving instance DecidableEq for Except

/-- The error kinds `Decoder.Decode` reports. -/
inductive DecodeError where
  | syntaxError (msg : String)
  | eof
  | unexpectedEOF
  | unmarshalType (value : String) (target : String)
  deriving DecidableEq, Repr

/-- One entry of the scanner's `parseState` stack, with the members read so
far (latest first). `objectKey`/`objectColon` are `parseObjectKey` before and
after the key, `objectValue`/`objectNext` are `parseObjectValue` before and
after the value, `array` is `parseArrayValue`. -/
inductive Frame where
  | array (elems : List JSON)
  | objectKey (ms : List (String × JSON))
  | objectColon (ms : List (String × JSON)) (key : String)
  | objectValue (ms : List (String × JSON)) (key : String)
  | objectNext (ms : List (String × JSON))

/-- The scanner's `step` function, as data. The literal states carry the
characters read so far, latest first. -/
inductive Lex where
  | beginValue
  | beginValueOrEmpty
  | beginStringOrEmpty
  | beginString
  | endValue
  | inString (raw : List Char)
  | inStringEsc (raw : List Char)
  | inStringEscU (raw : List Char) (seen : Nat)
  | neg (lit : List Char)
  | zero (lit : List Char)
  | int (lit : List Char)
  | dot (lit : List Char)
  | frac (lit : List Char)
  | exp (lit : List Char)
  | expSign (lit : List Char)
  | expDigits (lit : List Char)
  | literal (rest : List Char) (v : JSON) (name : String)

/-- What one byte does to the scanner: go on, end of the top-level value, or a
syntax error. -/
inductive Step where
  | next (stack : List Frame) (lex : Lex)
  | done (v : JSON)
  | fail (msg : String)

def maxNestingDepth : Nat := 10000

def isSpace (c : Char) : Bool :=
  c = ' ' || c = '\t' || c = '\r' || c = '\n'

def isDigit (c : Char) : Bool :=
  decide ('0' ≤ c) && decide (c ≤ '9')

def isHex (c : Char) : Bool :=
  isDigit c || (decide ('a' ≤ c) && decide (c ≤ 'f')) || (decide ('A' ≤ c) && decide (c ≤ 'F'))

def hexVal (c : Char) : Nat :=
  if isDigit c then c.toNat - 48
  else if decide ('a' ≤ c) && decide (c ≤ 'f') then c.toNat - 87
  else c.toNat - 55

/-- The code unit of the four hexadecimal digits of a `\uXXXX`. -/
def hex4 (a b c d : Char) : Nat :=
  hexVal a * 4096 + hexVal b * 256 + hexVal c * 16 + hexVal d

def isSurrogate (r : Nat) : Bool :=
  decide (0xd800 ≤ r) && decide (r < 0xe000)

/-- The function `utf16.DecodeRune`; U+FFFD when the pair is not valid. -/
def decodeRune (r1 r2 : Nat) : Char :=
  if 0xd800 ≤ r1 ∧ r1 < 0xdc00 ∧ 0xdc00 ≤ r2 ∧ r2 < 0xe000 then
    Char.ofNat ((r1 - 0xd800) * 1024 + (r2 - 0xdc00) + 0x10000)
  else Char.ofNat 0xfffd

/-- The character a surrogate `r1` makes with the `\uXXXX` that follows it
(`getu4` and `utf16.DecodeRune`), if that is a valid pair. -/
def pairAt (r1 : Nat) : List Char → Option Char
  | e0 :: e1 :: a :: b :: c :: d :: _ =>
    if e0 = '\\' && e1 = 'u' && isHex a && isHex b && isHex c && isHex d &&
        decodeRune r1 (hex4 a b c d) != Char.ofNat 0xfffd then
      some (decodeRune r1 (hex4 a b c d))
    else none
  | _ => none

def unescape (c : Char) : Char :=
  if c = 'b' then Char.ofNat 8
  else if c = 'f' then Char.ofNat 12
  else if c = 'n' then '\n'
  else if c = 'r' then '\r'
  else if c = 't' then '\t'
  else c

/-- The function `unquoteBytes` on the text between the quotes, which the
scanner has already checked: the escapes are replaced by the characters they
stand for, a surrogate that is not the first half of a valid pair by U+FFFD.
The second argument is the number of characters to pass over, 6 after a valid
pair, whose second `\uXXXX` has been read with the first. -/
def unquoteChars : List Char → Nat → List Char
  | [], _ => []
  | _ :: tl, skip + 1 => unquoteChars tl skip
  | c0 :: tl, 0 =>
    if c0 = '\\' then
      match tl with
      | [] => []
      | c1 :: rest =>
        if c1 = 'u' then
          match rest with
          | a :: b :: c :: d :: rest4 =>
            if isSurrogate (hex4 a b c d) then
              match pairAt (hex4 a b c d) rest4 with
              | some r => r :: unquoteChars rest4 6
              | none => Char.ofNat 0xfffd :: unquoteChars rest4 0
            else Char.ofNat (hex4 a b c d) :: unquoteChars rest4 0
          | _ => []
        else unescape c1 :: unquoteChars rest 0
    else c0 :: unquoteChars tl 0

def unquote (raw : List Char) : String :=
  String.mk (unquoteChars raw 0)

/-- The function `pushParseState`, with its depth check. -/
def pushParseState (f : Frame) (stack : List Frame) (lex : Lex) : Step :=
  if (f :: stack).length ≤ maxNestingDepth then .next (f :: stack) lex
  else .fail "exceeded max depth"

/-- A value is complete: it is the result when the stack is empty, and goes
into the innermost open array or object otherwise. -/
def endValue (v : JSON) : List Frame → Step
  | [] => .done v
  | .array elems :: st => .next (.array (v :: elems) :: st) .endValue
  | .objectKey ms :: st =>
    match v with
    | .str k => .next (.objectColon ms k :: st) .endValue
    | _ => .fail "looking for beginning of object key string"
  | .objectValue ms k :: st => .next (.objectNext ((k, v) :: ms) :: st) .endValue
  | .objectColon _ _ :: _ => .fail "after object key"
  | .objectNext _ :: _ => .fail "after object key:value pair"

/-- The state `stateEndValue` below the top level. -/
def stateEndValue (stack : List Frame) (c : Char) : Step :=
  if isSpace c then .next stack .endValue
  else
    match stack with
    | .objectColon ms k :: st =>
      if c = ':' then .next (.objectValue ms k :: st) .beginValue
      else .fail "after object key"
    | .objectNext ms :: st =>
      if c = ',' then .next (.objectKey ms :: st) .beginString
      else if c = '\x7d' then endValue (.obj ms.reverse) st
      else .fail "after object key:value pair"
    | .array elems :: st =>
      if c = ',' then .next (.array elems :: st) .beginValue
      else if c = ']' then endValue (.arr elems.reverse) st
      else .fail "after array element"
    | _ => .fail ""

def stateBeginValue (stack : List Frame) (c : Char) : Step :=
  if isSpace c then .next stack .beginValue
  else if c = '\x7b' then pushParseState (.objectKey []) stack .beginStringOrEmpty
  else if c = '[' then pushParseState (.array []) stack .beginValueOrEmpty
  else if c = '"' then .next stack (.inString [])
  else if c = '-' then .next stack (.neg [c])
  else if c = '0' then .next stack (.zero [c])
  else if c = 't' then .next stack (.literal "rue".data (.bool true) "true")
  else if c = 'f' then .next stack (.literal "alse".data (.bool false) "false")
  else if c = 'n' then .next stack (.literal "ull".data .null "null")
  else if isDigit c then .next stack (.int [c])
  else .fail "looking for beginning of value"

def stateBeginString (stack : List Frame) (c : Char) : Step :=
  if isSpace c then .next stack .beginString
  else if c = '"' then .next stack (.inString [])
  else .fail "looking for beginning of object key string"

/-- The end of a number: the byte that ends it is then read by
`stateEndValue`. -/
def endNumber (lit : List Char) (stack : List Frame) (c : Char) : Step :=
  match endValue (.num (String.mk lit.reverse)) stack with
  | .next st _ => stateEndValue st c
  | r => r

/-- One byte through the scanner. -/
def step (stack : List Frame) (lex : Lex) (c : Char) : Step :=
  match lex with
  | .beginValue => stateBeginValue stack c
  | .beginValueOrEmpty =>
    if isSpace c then .next stack .beginValueOrEmpty
    else if c = ']' then
      match stack with
      | .array elems :: st => endValue (.arr elems.reverse) st
      | _ => .fail ""
    else stateBeginValue stack c
  | .beginStringOrEmpty =>
    if isSpace c then .next stack .beginStringOrEmpty
    else if c = '\x7d' then
      match stack with
      | .objectKey ms :: st => endValue (.obj ms.reverse) st
      | _ => .fail ""
    else stateBeginString stack c
  | .beginString => stateBeginString stack c
  | .endValue => stateEndValue stack c
  | .inString raw =>
    if c = '"' then endValue (.str (unquote raw.reverse)) stack
    else if c = '\\' then .next stack (.inStringEsc (c :: raw))
    else if c.toNat < 0x20 then .fail "in string literal"
    else .next stack (.inString (c :: raw))
  | .inStringEsc raw =>
    if c = 'b' || c = 'f' || c = 'n' || c = 'r' || c = 't' || c = '\\' || c = '/' || c = '"' then
      .next stack (.inString (c :: raw))
    else if c = 'u' then .next stack (.inStringEscU (c :: raw) 0)
    else .fail "in string escape code"
  | .inStringEscU raw seen =>
    if isHex c then
      if seen < 3 then .next stack (.inStringEscU (c :: raw) (seen + 1))
      else .next stack (.inString (c :: raw))
    else .fail "in \\u hexadecimal character escape"
  | .neg lit =>
    if c = '0' then .next stack (.zero (c :: lit))
    else if isDigit c then .next stack (.int (c :: lit))
    else .fail "in numeric literal"
  | .int lit =>
    if isDigit c then .next stack (.int (c :: lit))
    else if c = '.' then .next stack (.dot (c :: lit))
    else if c = 'e' || c = 'E' then .next stack (.exp (c :: lit))
    else endNumber lit stack c
  | .zero lit =>
    if c = '.' then .next stack (.dot (c :: lit))
    else if c = 'e' || c = 'E' then .next stack (.exp (c :: lit))
    else endNumber lit stack c
  | .dot lit =>
    if isDigit c then .next stack (.frac (c :: lit))
    else .fail "after decimal point in numeric literal"
  | .frac lit =>
    if isDigit c then .next stack (.frac (c :: lit))
    else if c = 'e' || c = 'E' then .next stack (.exp (c :: lit))
    else endNumber lit stack c
  | .exp lit =>
    if c = '+' || c = '-' then .next stack (.expSign (c :: lit))
    else if isDigit c then .next stack (.expDigits (c :: lit))
    else .fail "in exponent of numeric literal"
  | .expSign lit =>
    if isDigit c then .next stack (.expDigits (c :: lit))
    else .fail "in exponent of numeric literal"
  | .expDigits lit =>
    if isDigit c then .next stack (.expDigits (c :: lit))
    else endNumber lit stack c
  | .literal rest v name =>
    match rest with
    | [] => .fail ("in literal " ++ name)
    | [x] => if c = x then endValue v stack else .fail ("in literal " ++ name)
    | x :: xs => if c = x then .next stack (.literal xs v name) else .fail ("in literal " ++ name)

/-- The method `Decoder.readValue`: the first JSON value of the input. What
follows that value is not read. At the end of the input the scanner is fed
one space; when no value is complete then, the error is `io.EOF` for an input
that held nothing but white space (the scanner is still at the beginning of
the top-level value) and `io.ErrUnexpectedEOF` otherwise. -/
def readValue : List Frame → Lex → List Char → Except DecodeError JSON
  | stack, lex, [] =>
    match step stack lex ' ' with
    | .done v => .ok v
    | _ =>
      match stack, lex with
      | [], .beginValue => .error .eof
      | _, _ => .error .unexpectedEOF
  | stack, lex, c :: cs =>
    match step stack lex c with
    | .done v => .ok v
    | .next st lx => readValue st lx cs
    | .fail msg => .error (.syntaxError msg)

/-! ## strconv -/

def digitsValue : Nat → List Char → Nat
  | acc, [] => acc
  | acc, c :: cs => digitsValue (acc * 10 + (c.toNat - 48)) cs

/-- The function `strconv.ParseInt(s, 10, 64)`: an optional sign, then one or
more decimal digits, the value within the range of `int64`. -/
def parseInt (s : String) : Option Int :=
  let body : List Char :=
    match s.data with
    | '+' :: ds => ds
    | '-' :: ds => ds
    | ds => ds
  let negative : Bool :=
    match s.data with
    | '-' :: _ => true
    | _ => false
  if body.isEmpty || !body.all isDigit then none
  else
    let n := digitsValue 0 body
    if negative then (if n ≤ 2 ^ 63 then some (-(n : Int)) else none)
    else (if n < 2 ^ 63 then some (n : Int) else none)

def digitChar (n : Nat) : Char :=
  Char.ofNat (48 + n % 10)

/-- The decimal digits of `n`, most significant first; `fuel` bounds the
number of digits. -/
def natDigits : Nat → Nat → List Char → List Char
  | 0, _, acc => acc
  | fuel + 1, n, acc =>
    if n < 10 then digitChar n :: acc
    else natDigits fuel (n / 10) (digitChar n :: acc)

/-- The function `strconv.FormatInt(i, 10)`. -/
def formatInt (i : Int) : String :=
  match i with
  | Int.ofNat n => String.mk (natDigits (n + 1) n [])
  | Int.negSucc n => String.mk ('-' :: natDigits (n + 2) (n + 1) [])

/-! ## encoding/json: decoding into `Task` -/

set_option linter.dupNamespace false in
/-- The struct `Task` of `main.go`. -/
structure Task where
  ID : Int
  Task : String
  Deadline : String
  deriving DecidableEq, Repr

/-- The fields of `Task`, by their `json` names `id`, `task`, `deadline`. -/
inductive Field where
  | id
  | task
  | deadline
  deriving DecidableEq, Repr

/-- One character of `foldName`: ASCII letters go to upper case, and the two
characters outside ASCII whose fold set holds an ASCII letter (U+017F and
U+212A) go to that letter. Any other character is left as it is, which does
not change whether a folded key equals the folded name of a field, all of
them ASCII. -/
def foldChar (c : Char) : Char :=
  if decide ('a' ≤ c) && decide (c ≤ 'z') then Char.ofNat (c.toNat - 32)
  else if c = Char.ofNat 0x17f then 'S'
  else if c = Char.ofNat 0x212a then 'K'
  else c

def foldName (key : String) : List Char :=
  key.data.map foldChar

/-- The field a key of the object selects: the exact name first, then the
name up to case folding. -/
def lookupField (key : String) : Option Field :=
  if key = "id" then some .id
  else if key = "task" then some .task
  else if key = "deadline" then some .deadline
  else if foldName key = foldName "id" then some .id
  else if foldName key = foldName "task" then some .task
  else if foldName key = foldName "deadline" then some .deadline
  else none

/-- The decoder's state: the struct being filled and `savedError`. -/
structure DecodeState where
  task : Task
  savedError : Option DecodeError
  deriving DecidableEq, Repr

/-- The method `saveError`: only the first error is kept. -/
def saveError (d : DecodeState) (e : DecodeError) : DecodeState :=
  match d.savedError with
  | none => { d with savedError := some e }
  | some _ => d

/-- The name of a value's kind in an `UnmarshalTypeError`. A number is
`number`; only a numeric target that cannot hold the literal adds the literal
(see `storeField`). -/
def JSON.kind : JSON → String
  | .null => "null"
  | .bool _ => "bool"
  | .num _ => "number"
  | .str _ => "string"
  | .arr _ => "array"
  | .obj _ => "object"

/-- A value stored into a field (`literalStore`, `array`, `object` on a field
of kind int or string): `null` leaves the field alone, a value of the field's
kind is stored, any other value is an `UnmarshalTypeError`, saved while the
decoding goes on. -/
def storeField (f : Field) (v : JSON) (d : DecodeState) : DecodeState :=
  match f, v with
  | _, .null => d
  | .id, .num lit =>
    match parseInt lit with
    | some n => { d with task := { d.task with ID := n } }
    | none => saveError d (.unmarshalType ("number " ++ lit) "int")
  | .id, w => saveError d (.unmarshalType w.kind "int")
  | .task, .str s => { d with task := { d.task with Task := s } }
  | .task, w => saveError d (.unmarshalType w.kind "string")
  | .deadline, .str s => { d with task := { d.task with Deadline := s } }
  | .deadline, w => saveError d (.unmarshalType w.kind "string")

/-- The members of an object, in the order of the text; a key that selects no
field has its value skipped. -/
def storeMembers : List (String × JSON) → DecodeState → DecodeState
  | [], d => d
  | (k, v) :: ms, d =>
    match lookupField k with
    | some f => storeMembers ms (storeField f v d)
    | none => storeMembers ms d

/-- The method `decodeState.unmarshal` into a `*Task` that points to the zero
value: an object fills the fields, `null` does nothing, any other value is an
`UnmarshalTypeError`. The result is the saved error, if there is one. -/
def unmarshal (v : JSON) : Except DecodeError Task :=
  let init : DecodeState := { task := ⟨0, "", ""⟩, savedError := none }
  let d : DecodeState :=
    match v with
    | .null => init
    | .obj ms => storeMembers ms init
    | w => saveError init (.unmarshalType w.kind "main.Task")
  match d.savedError with
  | some e => .error e
  | none => .ok d.task

/-- The call `json.NewDecoder(req.Body).Decode(&task)` on a fresh decoder and
a zero `task`. -/
def decodeTask (body : String) : Except DecodeError Task :=
  match readValue [] .beginValue body.data with
  | .error e => .error e
  | .ok v => unmarshal v

/-! ## encoding/json: encoding a `[]Task` -/

/-- A Go slice: `none` is the nil slice of `var tasks []Task`, which has no
backing array, and `some xs` a slice that holds `xs`. -/
abbrev Slice (α : Type) := Option (List α)

/-- The builtin `append(tasks, task)`; the result is never nil. -/
def Slice.append {α : Type} (s : Slice α) (x : α) : Slice α :=
  match s with
  | none => some [x]
  | some xs => some (xs ++ [x])

def hexDigit (n : Nat) : Char :=
  if n < 10 then Char.ofNat (48 + n) else Char.ofNat (87 + n)

/-- One character of `appendString` with `escapeHTML` set, as an `Encoder`
has it: the quote and the backslash get a backslash, the control characters
their short form or `\u00XX`, and `<`, `>`, `&`, U+2028 and U+2029 are written
as `\uXXXX`. -/
def escapeChar (c : Char) : List Char :=
  if c = '"' then ['\\', '"']
  else if c = '\\' then ['\\', '\\']
  else if c = Char.ofNat 8 then ['\\', 'b']
  else if c = Char.ofNat 12 then ['\\', 'f']
  else if c = '\n' then ['\\', 'n']
  else if c = '\r' then ['\\', 'r']
  else if c = '\t' then ['\\', 't']
  else if c.toNat < 0x20 || c = '<' || c = '>' || c = '&' then
    ['\\', 'u', '0', '0', hexDigit (c.toNat / 16), hexDigit (c.toNat % 16)]
  else if c = Char.ofNat 0x2028 then ['\\', 'u', '2', '0', '2', '8']
  else if c = Char.ofNat 0x2029 then ['\\', 'u', '2', '0', '2', '9']
  else [c]

def escapeChars : List Char → List Char
  | [] => []
  | c :: cs => escapeChar c ++ escapeChars cs

/-- A Go string as a JSON string. -/
def encodeString (s : String) : String :=
  String.mk ('"' :: (escapeChars s.data ++ ['"']))

/-- A `Task` as a JSON object, the fields in the order of the struct. -/
def encodeTask (t : Task) : String :=
  "\x7b\"id\":" ++ formatInt t.ID ++ ",\"task\":" ++ encodeString t.Task ++
    ",\"deadline\":" ++ encodeString t.Deadline ++ "\x7d"

def joinComma : List String → String
  | [] => ""
  | [x] => x
  | x :: y :: rest => x ++ "," ++ joinComma (y :: rest)

/-- The marshalling of a `[]Task`: a nil slice is the JSON value `null`, any
other slice a JSON array. -/
def marshalTasks : Slice Task → String
  | none => "null"
  | some ts => "[" ++ joinComma (ts.map encodeTask) ++ "]"

/-- The call `json.NewEncoder(res).Encode(tasks)` writes the value and a
newline. -/
def encodeTasks (tasks : Slice Task) : String :=
  marshalTasks tasks ++ "\n"

/-! ## net/http: the response -/

/-- What a handler leaves in its `http.ResponseWriter`: the status code and
the bytes of the body. -/
structure Response where
  status : Nat
  body : String
  deriving DecidableEq, Repr

def StatusOK : Nat := 200
def StatusCreated : Nat := 201
def StatusBadRequest : Nat := 400
def StatusInternalServerError : Nat := 500

/-- The function `http.Error(res, msg, code)`: the status `code` and the
message followed by a newline. -/
def httpError (msg : String) (code : Nat) : Response :=
  { status := code, body := msg ++ "\n" }

/-! ## database/sql over go-sqlite3: the store -/

/-- A row of the table `reqs`: `id INTEGER PRIMARY KEY AUTOINCREMENT`,
`task TEXT NOT NULL`, `deadline TEXT NOT NULL`. -/
structure Row where
  id : Int
  task : String
  deadline : String
  deriving DecidableEq, Repr

/-- The table `reqs`: its rows in the order a scan of the table returns them,
and `seq`, the entry of `sqlite_sequence` for the table (the largest rowid an
insert has assigned, 0 before the first one). -/
structure Table where
  rows : List Row
  seq : Nat
  deriving DecidableEq, Repr

/-- The database behind `s.db`: the table `reqs`, if it has been created. -/
structure Store where
  reqs : Option Table
  deriving DecidableEq, Repr

/-- The struct `Server` of `main.go`; the logger plays no part in the
handlers. -/
structure Server where
  db : Store
  deriving DecidableEq, Repr

/-- The largest rowid SQLite assigns. -/
def MAX_ROWID : Int := 9223372036854775807

/-- The largest rowid among the rows, if there is a row. -/
def maxRowid : List Row → Option Int
  | [] => none
  | r :: rs =>
    match maxRowid rs with
    | none => some r.id
    | some m => some (max r.id m)

/-- The rowid an insert into an `AUTOINCREMENT` table gets (`OP_NewRowid`):
one more than the largest rowid in the table or 1 for an empty table, raised
to one more than `seq`; the insert fails with `SQLITE_FULL` once the largest
rowid has been used. -/
def newRowid (t : Table) : Except String Int :=
  let v : Option Int :=
    match maxRowid t.rows with
    | none => some 1
    | some m => if m ≥ MAX_ROWID then none else some (m + 1)
  match v with
  | none => .error "database or disk is full"
  | some v =>
    if (t.seq : Int) = MAX_ROWID then .error "database or disk is full"
    else .ok (max v ((t.seq : Int) + 1))

/-- The call `s.db.Exec("INSERT INTO reqs(task, deadline) VALUES (?, ?)", task, deadline)`.
`fault` is a failure of the engine that does not come from the statement (an
I/O error, a locked database file), with its error text; without one the
statement fails when there is no table `reqs` or no rowid left, and otherwise
adds one row. -/
def execInsert (fault : Option String) (db : Store) (task deadline : String) :
    Except String Store :=
  match fault with
  | some e => .error e
  | none =>
    match db.reqs with
    | none => .error "no such table: reqs"
    | some t =>
      match newRowid t with
      | .error e => .error e
      | .ok v => .ok { reqs := some { rows := t.rows ++ [⟨v, task, deadline⟩], seq := v.toNat } }

/-- The call `s.db.Exec("CREATE TABLE IF NOT EXISTS reqs (...)")`: an empty
table when there is none, no change when there is one. -/
def execCreateTable (fault : Option String) (db : Store) : Except String Store :=
  match fault with
  | some e => .error e
  | none =>
    match db.reqs with
    | none => .ok { reqs := some { rows := [], seq := 0 } }
    | some _ => .ok db

/-- A value the driver hands to `Scan`: `nil` for NULL, `int64` for an
INTEGER, `string` for a TEXT. -/
inductive DriverValue where
  | null
  | int64 (v : Int)
  | string (s : String)
  deriving DecidableEq, Repr

/-- The three columns of one result row of the `SELECT`. -/
structure DriverRow where
  id : DriverValue
  task : DriverValue
  deadline : DriverValue
  deriving DecidableEq, Repr

def Row.toDriver (r : Row) : DriverRow :=
  { id := .int64 r.id, task := .string r.task, deadline := .string r.deadline }

/-- The result of a query, a `*sql.Rows`: the rows for which `Next` returns
true, and the error `Err` reports once `Next` has returned false. -/
structure Rows where
  delivered : List DriverRow
  err : Option String
  deriving DecidableEq, Repr

/-- The failures of the engine during one `SELECT`: `query` makes `Query`
itself return an error; `step`, when it is `some (k, e)`, makes the step after
the `k`-th row fail with `e`, so that `Next` returns false there. -/
structure QueryFault where
  query : Option String
  step : Option (Nat × String)
  deriving DecidableEq, Repr

def noFault : QueryFault :=
  { query := none, step := none }

/-- The call `s.db.Query("SELECT id, task, deadline FROM reqs")`. The rows are
read one by one as `Next` is called. -/
def query (fault : QueryFault) (db : Store) : Except String Rows :=
  match fault.query with
  | some e => .error e
  | none =>
    match db.reqs with
    | none => .error "no such table: reqs"
    | some t =>
      match fault.step with
      | none => .ok { delivered := t.rows.map Row.toDriver, err := none }
      | some (k, e) =>
        if k ≤ t.rows.length then
          .ok { delivered := (t.rows.take k).map Row.toDriver, err := some e }
        else .ok { delivered := t.rows.map Row.toDriver, err := none }

/-- The function `convertAssign` into an `*int`. -/
def scanInt : DriverValue → Except String Int
  | .null => .error "converting NULL to int is unsupported"
  | .int64 v => .ok v
  | .string s =>
    match parseInt s with
    | some v => .ok v
    | none => .error "converting driver.Value type string to a int: invalid syntax"

/-- The function `convertAssign` into a `*string`. -/
def scanString : DriverValue → Except String String
  | .null => .error "converting NULL to string is unsupported"
  | .int64 v => .ok (formatInt v)
  | .string s => .ok s

/-- The call `rows.Scan(&task.ID, &task.Task, &task.Deadline)`. -/
def rowsScan (r : DriverRow) : Except String Task :=
  match scanInt r.id with
  | .error e => .error e
  | .ok i =>
    match scanString r.task with
    | .error e => .error e
    | .ok t =>
      match scanString r.deadline with
      | .error e => .error e
      | .ok d => .ok ⟨i, t, d⟩

/-! ## The handlers of `main.go` -/

/-- The method `Server.SaveTask`: decode the body, insert the row, answer. -/
def Server.SaveTask (s : Server) (fault : Option String) (body : String) :
    Response × Server :=
  match decodeTask body with
  | .error _ => (httpError "Failed to parse JSON body" StatusBadRequest, s)
  | .ok task =>
    match execInsert fault s.db task.Task task.Deadline with
    | .error _ => (httpError "Failed to save task to database" StatusInternalServerError, s)
    | .ok db => ({ status := StatusCreated, body := "Task saved successfully" }, { db := db })

/-- The loop `for rows.Next() { ... }` of `ListTasks` over the rows that
`Next` delivers: the first row that fails to scan ends it with the error. -/
def scanLoop : Slice Task → List DriverRow → Except String (Slice Task)
  | tasks, [] => .ok tasks
  | tasks, r :: rs =>
    match rowsScan r with
    | .error e => .error e
    | .ok task => scanLoop (tasks.append task) rs

/-- The method `Server.ListTasks`: query, scan every row that `Next` delivers
into `tasks`, answer. `rows.Err()` is not consulted. -/
def Server.ListTasks (s : Server) (fault : QueryFault) : Response × Server :=
  match query fault s.db with
  | .error _ => (httpError "Failed to fetch tasks from database" StatusInternalServerError, s)
  | .ok rows =>
    match scanLoop none rows.delivered with
    | .error _ => (httpError "Failed to scan tasks from database" StatusInternalServerError, s)
    | .ok tasks => ({ status := StatusOK, body := encodeTasks tasks }, s)

/-- The method `Server.InitializeDB`: the error of the `CREATE TABLE`
statement, if any, and the server afterwards. -/
def Server.InitializeDB (s : Server) (fault : Option String) : Option String × Server :=
  match execCreateTable fault s.db with
  | .error e => (some e, s)
  | .ok db => (none, { db := db })

/-! ## Runs of the service -/

/-- The `Task` that `Scan` makes of a stored row. -/
def Row.toTask (r : Row) : Task :=
  ⟨r.id, r.task, r.deadline⟩

/-- The rows of the table `reqs`, none when there is no table. -/
def Server.rows (s : Server) : List Row :=
  match s.db.reqs with
  | none => []
  | some t => t.rows

/-- The database file before the first start: no table. -/
def fresh : Server :=
  { db := { reqs := none } }

/-- The servers that `InitializeDB` and `SaveTask` calls reach from the fresh
database, whatever the bodies and the failures of the engine. -/
inductive Reachable : Server → Prop where
  | start : Reachable fresh
  | init (s : Server) (fault : Option String) :
      Reachable s → Reachable (s.InitializeDB fault).2
  | save (s : Server) (fault : Option String) (body : String) :
      Reachable s → Reachable (s.SaveTask fault body).2

/-- A sequence of `SaveTask` calls, one after the other: the server at the
end and the responses in call order. -/
def saveAll : Server → List (Option String × String) → Server × List Response
  | s, [] => (s, [])
  | s, (fault, body) :: calls =>
    let r := s.SaveTask fault body
    let rest := saveAll r.2 calls
    (rest.1, r.1 :: rest.2)

/-- The ids that a sequence of `SaveTask` calls assigns, in call order: for
each call that answers 201, the id of the row that is last in the table right
after the call. -/
def assignedIds : Server → List (Option String × String) → List Int
  | _, [] => []
  | s, (fault, body) :: calls =>
    let r := s.SaveTask fault body
    if r.1.status = 201 then
      match r.2.rows.getLast? with
      | some row => row.id :: assignedIds r.2 calls
      | none => assignedIds r.2 calls
    else assignedIds r.2 calls

/-- What the scanner goes on to do after a step, on the rest of the input. -/
def resume : Step → List Char → Except DecodeError JSON
  | .done v, _ => .ok v
  | .next st lx, rest => readValue st lx rest
  | .fail msg, _ => .error (.syntaxError msg)

/-- The request body `{"task": t, "deadline": d}` as a client writes it: the
two members in this order, the strings quoted and escaped as `encoding/json`
does it. -/
def requestBody (t d : String) : String :=
  "\x7b\"task\":" ++ encodeString t ++ ",\"deadline\":" ++ encodeString d ++ "\x7d"

/-- The values an `int` field takes without an error: `null`, and a number
whose literal `ParseInt` accepts. -/
def acceptedByInt : JSON → Bool
  | .null => true
  | .num lit => (parseInt lit).isSome
  | _ => false

/-- Two decoder states that differ at most in the field `ID`. -/
def sameButID (d1 d2 : DecodeState) : Prop :=
  d1.task.Task = d2.task.Task ∧ d1.task.Deadline = d2.task.Deadline ∧
    d1.savedError = d2.savedError

/-! ## Lemmas on the store -/

theorem maxRowid_ge (rows : List Row) (m : Int) (h : maxRowid rows = some m) :
    ∀ r ∈ rows, r.id ≤ m := by
  induction rows generalizing m with
  | nil => intro r hr; cases hr
  | cons a rs ih =>
    intro r hr
    unfold maxRowid at h
    cases hm : maxRowid rs with
    | none =>
      rw [hm] at h
      cases rs with
      | nil =>
        simp at hr h
        subst hr; omega
      | cons b bs =>
        unfold maxRowid at hm
        cases hb : maxRowid bs <;> rw [hb] at hm <;> simp at hm
    | some m0 =>
      rw [hm] at h
      simp at h
      have ih0 := ih m0 hm
      rcases List.mem_cons.mp hr with h1 | h1
      · subst h1; omega
      · have := ih0 r h1; omega

theorem newRowid_gt (t : Table) (v : Int) (h : newRowid t = .ok v) :
    (∀ r ∈ t.rows, r.id < v) ∧ (t.seq : Int) < v ∧ 0 < v := by
  unfold newRowid at h
  cases hm : maxRowid t.rows with
  | none =>
    rw [hm] at h
    simp only at h
    split at h
    · cases h
    · injection h with h
      refine ⟨?_, by omega, by omega⟩
      intro r hr
      cases hrows : t.rows with
      | nil => rw [hrows] at hr; cases hr
      | cons b bs =>
        rw [hrows] at hm
        unfold maxRowid at hm
        cases hb : maxRowid bs <;> rw [hb] at hm <;> simp at hm
  | some m =>
    rw [hm] at h
    simp only at h
    by_cases hmax : m ≥ MAX_ROWID
    · rw [if_pos hmax] at h
      cases h
    · rw [if_neg hmax] at h
      simp only at h
      split at h
      · cases h
      · injection h with h
        refine ⟨?_, by omega, by omega⟩
        intro r hr
        have := maxRowid_ge t.rows m hm r hr
        omega

/-- What a successful insert does: the table was there, and it now holds the
rows it held, then one row with a rowid that is positive and larger than every
rowid in the table and than `seq`. -/
theorem execInsert_ok (fault : Option String) (db db1 : Store) (task deadline : String)
    (h : execInsert fault db task deadline = .ok db1) :
    ∃ t v, fault = none ∧ db.reqs = some t ∧ newRowid t = .ok v ∧
      db1 = { reqs := some { rows := t.rows ++ [⟨v, task, deadline⟩], seq := v.toNat } } := by
  unfold execInsert at h
  cases fault with
  | some e => cases h
  | none =>
    simp only at h
    cases ht : db.reqs with
    | none => rw [ht] at h; cases h
    | some t =>
      rw [ht] at h
      simp only at h
      cases hv : newRowid t with
      | error e => rw [hv] at h; cases h
      | ok v =>
        rw [hv] at h
        injection h with h
        exact ⟨t, v, rfl, rfl, hv, h.symm⟩

/-! ## Lemmas on `ListTasks` -/

theorem rowsScan_stored (r : Row) : rowsScan r.toDriver = .ok r.toTask := by
  rfl

theorem scanLoop_stored_some (rows : List Row) (acc : List Task) :
    scanLoop (some acc) (rows.map Row.toDriver) = .ok (some (acc ++ rows.map Row.toTask)) := by
  induction rows generalizing acc with
  | nil => simp [scanLoop]
  | cons r rs ih =>
    simp only [List.map_cons, scanLoop, rowsScan_stored, Slice.append]
    rw [ih]
    simp

/-- The loop over stored rows never fails to scan: it ends with the nil slice
when there is no row and with the tasks of all the rows, in order, otherwise. -/
theorem scanLoop_stored (rows : List Row) :
    scanLoop none (rows.map Row.toDriver) =
      .ok (match rows with
        | [] => none
        | r :: rs => some (r.toTask :: rs.map Row.toTask)) := by
  cases rows with
  | nil => rfl
  | cons r rs =>
    simp only [List.map_cons, scanLoop, rowsScan_stored, Slice.append]
    rw [scanLoop_stored_some]
    simp

/-- A row that cannot be scanned ends the loop with an error, whatever was
scanned before it. -/
theorem scanLoop_scan_error (acc : Slice Task) (pre post : List DriverRow) (r : DriverRow)
    (e : String) (hpre : ∀ x ∈ pre, ∃ t, rowsScan x = .ok t) (hr : rowsScan r = .error e) :
    scanLoop acc (pre ++ r :: post) = .error e := by
  induction pre generalizing acc with
  | nil => simp [scanLoop, hr]
  | cons x xs ih =>
    obtain ⟨t, ht⟩ := hpre x (List.mem_cons_self x xs)
    simp only [List.cons_append, scanLoop, ht]
    exact ih _ (fun y hy => hpre y (List.mem_cons_of_mem x hy))

/-- The loop at a row whose `task` is NULL, after a row that scans: the error
of `Scan`, and nothing of the first row. -/
theorem scanLoop_null_task :
    scanLoop none [⟨.int64 1, .string "a", .string "x"⟩, ⟨.int64 2, .null, .string "y"⟩] =
      .error "converting NULL to string is unsupported" := by
  decide

/-- A query that fails gets the fixed 500 response. -/
theorem ListTasks_query_error (s : Server) (fault : QueryFault) (e : String)
    (h : query fault s.db = .error e) :
    s.ListTasks fault = (⟨500, "Failed to fetch tasks from database\n"⟩, s) := by
  unfold Server.ListTasks
  rw [h]
  rfl

/-- The response of `ListTasks` when the engine does not fail. -/
theorem ListTasks_noFault (t : Table) :
    (Server.mk ⟨some t⟩).ListTasks noFault =
      (⟨200, encodeTasks (match t.rows with
        | [] => none
        | r :: rs => some (r.toTask :: rs.map Row.toTask))⟩, Server.mk ⟨some t⟩) := by
  unfold Server.ListTasks query
  simp only [noFault]
  rw [scanLoop_stored]
  rfl

/-- The response of `ListTasks` when the step after the `k`-th row fails: the
status is 200 and the body holds the first `k` rows. -/
theorem ListTasks_step_fault (t : Table) (k : Nat) (e : String) (hk : k ≤ t.rows.length) :
    (Server.mk ⟨some t⟩).ListTasks ⟨none, some (k, e)⟩ =
      (⟨200, encodeTasks (match t.rows.take k with
        | [] => none
        | r :: rs => some (r.toTask :: rs.map Row.toTask))⟩, Server.mk ⟨some t⟩) := by
  unfold Server.ListTasks query
  simp only [if_pos hk]
  rw [scanLoop_stored]
  rfl

/-! ## The handlers: the claims on `SaveTask` and `InitializeDB` -/

/-- C1: `ListTasks` on a table `reqs` with zero rows, the engine not failing:
the status is 200, and the body is the text `null` and a newline, not the empty
array `[]`, because the nil slice `tasks` is never replaced by an empty one. -/
theorem c1_ListTasks_empty_table (seq : Nat) :
    ((Server.mk ⟨some ⟨[], seq⟩⟩).ListTasks noFault).1 = ⟨200, "null\n"⟩ ∧
      ((Server.mk ⟨some ⟨[], seq⟩⟩).ListTasks noFault).1.body ≠ "[]\n" ∧
      ((Server.mk ⟨some ⟨[], seq⟩⟩).ListTasks noFault).1.body ≠ "[]" := by
  rw [ListTasks_noFault]
  have hb : encodeTasks none = "null\n" := by decide
  refine ⟨?_, ?_, ?_⟩
  · show (⟨200, encodeTasks none⟩ : Response) = ⟨200, "null\n"⟩
    rw [hb]
  · show encodeTasks none ≠ "[]\n"
    rw [hb]
    decide
  · show encodeTasks none ≠ "[]"
    rw [hb]
    decide

/-- C2: a body that `Decode` rejects (a syntax error, an unexpected end, or a
value of the wrong type) gets status 400 and the fixed message `Failed to parse
JSON body`, and the store is left as it was, whatever the state of the engine. -/
theorem c2_SaveTask_decode_error (s : Server) (fault : Option String) (body : String)
    (e : DecodeError) (h : decodeTask body = .error e) :
    s.SaveTask fault body = (⟨400, "Failed to parse JSON body\n"⟩, s) := by
  unfold Server.SaveTask
  rw [h]
  rfl

/-- C2 at the body `not json` and at a `task` of the wrong type, on a table
with one row. -/
theorem c2_SaveTask_decode_error_witness :
    (decodeTask "not json" = .error (.syntaxError "in literal null") ∧
      (Server.mk ⟨some ⟨[⟨1, "a", "b"⟩], 1⟩⟩).SaveTask none "not json" =
        (⟨400, "Failed to parse JSON body\n"⟩, Server.mk ⟨some ⟨[⟨1, "a", "b"⟩], 1⟩⟩)) ∧
    (decodeTask "\x7b\"task\": 5\x7d" = .error (.unmarshalType "number" "string") ∧
      (Server.mk ⟨some ⟨[⟨1, "a", "b"⟩], 1⟩⟩).SaveTask none "\x7b\"task\": 5\x7d" =
        (⟨400, "Failed to parse JSON body\n"⟩, Server.mk ⟨some ⟨[⟨1, "a", "b"⟩], 1⟩⟩)) :=
  ⟨⟨by decide, c2_SaveTask_decode_error _ none "not json"
      (.syntaxError "in literal null") (by decide)⟩,
    ⟨by decide, c2_SaveTask_decode_error _ none "\x7b\"task\": 5\x7d"
      (.unmarshalType "number" "string") (by decide)⟩⟩

/-- C3: a body that decodes to the task `t` and the deadline `d`, the insert
succeeding: status 201, the plain body `Task saved successfully`, and the
table holds the rows it held, unchanged and in their order, then one new row
with the task `t` and the deadline `d` as they were decoded. -/
theorem c3_SaveTask_created (s : Server) (fault : Option String) (body : String) (task : Task)
    (db1 : Store) (hd : decodeTask body = .ok task)
    (hi : execInsert fault s.db task.Task task.Deadline = .ok db1) :
    (s.SaveTask fault body).1 = ⟨201, "Task saved successfully"⟩ ∧
      ∃ old id, s.db.reqs = some old ∧
        (s.SaveTask fault body).2.rows = old.rows ++ [⟨id, task.Task, task.Deadline⟩] := by
  obtain ⟨t, v, _, ht, _, hdb⟩ := execInsert_ok fault s.db db1 _ _ hi
  have hs : s.SaveTask fault body = (⟨201, "Task saved successfully"⟩, Server.mk db1) := by
    unfold Server.SaveTask
    rw [hd]
    simp only
    rw [hi]
    rfl
  rw [hs]
  refine ⟨rfl, t, v, ht, ?_⟩
  rw [hdb]
  rfl

/-- C3 at a body with an empty `task` and no `deadline`, on a table with one
row: both strings are stored empty. -/
theorem c3_SaveTask_created_witness :
    decodeTask "\x7b\"task\":\"\"\x7d" = .ok ⟨0, "", ""⟩ ∧
      execInsert none ⟨some ⟨[⟨1, "a", "b"⟩], 1⟩⟩ "" "" =
        .ok ⟨some ⟨[⟨1, "a", "b"⟩, ⟨2, "", ""⟩], 2⟩⟩ ∧
      (((Server.mk ⟨some ⟨[⟨1, "a", "b"⟩], 1⟩⟩).SaveTask none "\x7b\"task\":\"\"\x7d").1 =
          ⟨201, "Task saved successfully"⟩ ∧
        ∃ old id, (Server.mk ⟨some ⟨[⟨1, "a", "b"⟩], 1⟩⟩).db.reqs = some old ∧
          ((Server.mk ⟨some ⟨[⟨1, "a", "b"⟩], 1⟩⟩).SaveTask none "\x7b\"task\":\"\"\x7d").2.rows =
            old.rows ++ [⟨id, "", ""⟩]) :=
  ⟨by decide, by decide,
    c3_SaveTask_created (Server.mk ⟨some ⟨[⟨1, "a", "b"⟩], 1⟩⟩) none "\x7b\"task\":\"\"\x7d"
      ⟨0, "", ""⟩ ⟨some ⟨[⟨1, "a", "b"⟩, ⟨2, "", ""⟩], 2⟩⟩ (by decide) (by decide)⟩

/-- C9: a body that decodes, the insert failing with any error `e` (a failure
of the engine, a missing table, no rowid left): status 500 and the fixed
message `Failed to save task to database`, the same response for every `e`,
and the store is left as it was. -/
theorem c9_SaveTask_insert_error (s : Server) (fault : Option String) (body : String)
    (task : Task) (e : String) (hd : decodeTask body = .ok task)
    (hi : execInsert fault s.db task.Task task.Deadline = .error e) :
    s.SaveTask fault body = (⟨500, "Failed to save task to database\n"⟩, s) := by
  unfold Server.SaveTask
  rw [hd]
  simp only
  rw [hi]
  rfl

/-- C9 at two errors of the engine with different texts, on a table with one
row. -/
theorem c9_SaveTask_insert_error_witness :
    (Server.mk ⟨some ⟨[⟨1, "a", "b"⟩], 1⟩⟩).SaveTask (some "disk I/O error") "\x7b\x7d" =
        (⟨500, "Failed to save task to database\n"⟩, Server.mk ⟨some ⟨[⟨1, "a", "b"⟩], 1⟩⟩) ∧
      (Server.mk ⟨some ⟨[⟨1, "a", "b"⟩], 1⟩⟩).SaveTask (some "database is locked") "\x7b\x7d" =
        (⟨500, "Failed to save task to database\n"⟩, Server.mk ⟨some ⟨[⟨1, "a", "b"⟩], 1⟩⟩) :=
  ⟨c9_SaveTask_insert_error _ (some "disk I/O error") "\x7b\x7d" ⟨0, "", ""⟩ "disk I/O error"
      (by decide) (by decide),
    c9_SaveTask_insert_error _ (some "database is locked") "\x7b\x7d" ⟨0, "", ""⟩
      "database is locked" (by decide) (by decide)⟩

/-- C10: `InitializeDB` twice in succession, the engine accepting the
statement both times: no error either time, the second call changes nothing,
and the store then holds the table `reqs` with the rows it held before the
first call (none when the table was not there). -/
theorem c10_InitializeDB_idempotent (s : Server) :
    (s.InitializeDB none).1 = none ∧
      ((s.InitializeDB none).2.InitializeDB none).1 = none ∧
      ((s.InitializeDB none).2.InitializeDB none).2 = (s.InitializeDB none).2 ∧
      (∃ t, (s.InitializeDB none).2.db.reqs = some t ∧ t.rows = s.rows) ∧
      (∀ t, s.db.reqs = some t → (s.InitializeDB none).2 = s) := by
  obtain ⟨⟨reqs⟩⟩ := s
  cases reqs with
  | none => exact ⟨rfl, rfl, rfl, ⟨⟨[], 0⟩, rfl, rfl⟩, fun t h => by cases h⟩
  | some t => exact ⟨rfl, rfl, rfl, ⟨t, rfl, rfl⟩, fun _ _ => rfl⟩

/-- C10 on the fresh database, where the first call creates the empty table,
and on a table with one row, which both calls leave as it is. -/
theorem c10_InitializeDB_idempotent_witness :
    ((fresh.InitializeDB none).2 = Server.mk ⟨some ⟨[], 0⟩⟩ ∧
      ((fresh.InitializeDB none).2.InitializeDB none).2 = (fresh.InitializeDB none).2) ∧
    (Server.mk ⟨some ⟨[⟨1, "a", "b"⟩], 1⟩⟩).InitializeDB none =
      (none, Server.mk ⟨some ⟨[⟨1, "a", "b"⟩], 1⟩⟩) ∧
    ((Server.mk ⟨some ⟨[⟨1, "a", "b"⟩], 1⟩⟩).InitializeDB none).2 =
      Server.mk ⟨some ⟨[⟨1, "a", "b"⟩], 1⟩⟩ :=
  ⟨⟨by decide, (c10_InitializeDB_idempotent fresh).2.2.1⟩, by decide,
    (c10_InitializeDB_idempotent (Server.mk ⟨some ⟨[⟨1, "a", "b"⟩], 1⟩⟩)).2.2.2.2
      ⟨[⟨1, "a", "b"⟩], 1⟩ rfl⟩

/-! ## The round trip -/

theorem digitChar_isDigit (n : Nat) : isDigit (digitChar n) = true := by
  unfold digitChar
  have h : n % 10 < 10 := Nat.mod_lt _ (by decide)
  generalize n % 10 = m at h
  interval_cases m <;> decide

theorem natDigits_isDigit (fuel n : Nat) (acc : List Char)
    (hacc : ∀ c ∈ acc, isDigit c = true) : ∀ c ∈ natDigits fuel n acc, isDigit c = true := by
  induction fuel generalizing n acc with
  | zero => simpa [natDigits] using hacc
  | succ k ih =>
    have hcons : ∀ c ∈ digitChar n :: acc, isDigit c = true := by
      intro c hc
      rcases List.mem_cons.mp hc with h | h
      · rw [h]; exact digitChar_isDigit n
      · exact hacc c h
    unfold natDigits
    split
    · exact hcons
    · exact ih _ _ hcons

theorem natDigits_ne_nil (fuel n : Nat) (acc : List Char) :
    natDigits (fuel + 1) n acc ≠ [] := by
  induction fuel generalizing n acc with
  | zero =>
    unfold natDigits
    split
    · simp
    · simp [natDigits]
  | succ k ih =>
    unfold natDigits
    split
    · simp
    · exact ih _ _

/-- The decimal text of a positive number holds a digit. -/
theorem formatInt_has_digit (v : Int) (hv : 0 < v) :
    ∃ c ∈ (formatInt v).data, isDigit c = true := by
  cases v with
  | ofNat n =>
    have hne := natDigits_ne_nil n n []
    obtain ⟨c, hc⟩ := List.exists_mem_of_ne_nil _ hne
    exact ⟨c, hc, natDigits_isDigit _ _ [] (by simp) c hc⟩
  | negSucc n => exact absurd hv (by simp [Int.negSucc_lt_zero])

theorem lookupField_task : lookupField "task" = some .task := by decide

theorem lookupField_deadline : lookupField "deadline" = some .deadline := by decide

theorem lookupField_id : lookupField "id" = some .id := by decide

/-- The handler after the scanner: what `SaveTask` answers to a body whose
first JSON value is `v`. -/
theorem SaveTask_of_value (s : Server) (fault : Option String) (body : String) (v : JSON)
    (hb : readValue [] .beginValue body.data = .ok v) :
    s.SaveTask fault body =
      (match unmarshal v with
      | .error _ => (httpError "Failed to parse JSON body" StatusBadRequest, s)
      | .ok task =>
        match execInsert fault s.db task.Task task.Deadline with
        | .error _ =>
          (httpError "Failed to save task to database" StatusInternalServerError, s)
        | .ok db => ({ status := StatusCreated, body := "Task saved successfully" }, { db := db })) := by
  unfold Server.SaveTask decodeTask
  rw [hb]

/-- The errors of `Decode` at the end of the input and at a number in a
string field: `io.EOF` for an empty or blank body, `io.ErrUnexpectedEOF` for
an open value, and the plain kind `number` in the type error. -/
theorem decodeTask_errors :
    decodeTask "" = .error .eof ∧ decodeTask " \n " = .error .eof ∧
      decodeTask "\x7b\"task\":" = .error .unexpectedEOF ∧
      decodeTask "\x7b\"task\":5\x7d" = .error (.unmarshalType "number" "string") ∧
      decodeTask "\x7b\"id\":1.5\x7d" = .error (.unmarshalType "number 1.5" "int") ∧
      decodeTask "7" = .error (.unmarshalType "number" "main.Task") := by
  decide

theorem decodeTask_of_value (body : String) (v : JSON)
    (hb : readValue [] .beginValue body.data = .ok v) : decodeTask body = unmarshal v := by
  unfold decodeTask
  rw [hb]

/-- An engine that fails neither the query nor a step is `noFault`. -/
theorem QueryFault_eq_noFault (qf : QueryFault) (hq : qf.query = none) (hs : qf.step = none) :
    qf = noFault := by
  obtain ⟨q, st⟩ := qf
  simp only at hq hs
  rw [hq, hs]
  rfl

/-- The round trip for any body that decodes to the task `t` and the deadline
`d`, the engine not failing during the `ListTasks` call. -/
theorem round_trip_of_decode (s : Server) (fault : Option String) (body : String)
    (i : Int) (t d : String) (hd : decodeTask body = .ok ⟨i, t, d⟩)
    (h201 : (s.SaveTask fault body).1.status = 201) :
    ∃ (id : Int) (tasks : List Task), 0 < id ∧ (⟨id, t, d⟩ : Task) ∈ tasks ∧
      ((s.SaveTask fault body).2.ListTasks noFault).1 =
        ⟨200, "[" ++ joinComma (tasks.map encodeTask) ++ "]" ++ "\n"⟩ ∧
      ¬ (formatInt id).data <:+: (s.SaveTask fault body).1.body.data := by
  have hs : s.SaveTask fault body =
      (match execInsert fault s.db t d with
      | .error _ =>
        (httpError "Failed to save task to database" StatusInternalServerError, s)
      | .ok db => ({ status := StatusCreated, body := "Task saved successfully" }, { db := db })) := by
    unfold Server.SaveTask
    rw [hd]
  cases hi : execInsert fault s.db t d with
  | error e =>
    rw [hi] at hs
    simp only at hs
    rw [hs] at h201
    have h500 : (500 : Nat) = 201 := h201
    exact absurd h500 (by decide)
  | ok db1 =>
    rw [hi] at hs
    simp only at hs
    obtain ⟨tb, v, _, _, hv, hdb⟩ := execInsert_ok fault s.db db1 t d hi
    obtain ⟨_, _, hpos⟩ := newRowid_gt tb v hv
    rw [hs, hdb]
    refine ⟨v, (tb.rows ++ [(⟨v, t, d⟩ : Row)]).map Row.toTask, hpos, ?_, ?_, ?_⟩
    · exact List.mem_map.mpr ⟨⟨v, t, d⟩, by simp, rfl⟩
    · simp only [ListTasks_noFault]
      cases hrows : tb.rows with
      | nil => rfl
      | cons r rs => rfl
    · intro hinf
      obtain ⟨c, hc, hdig⟩ := formatInt_has_digit v hpos
      have hmem : c ∈ "Task saved successfully".data := hinf.subset hc
      have hall : ∀ x ∈ "Task saved successfully".data, isDigit x = false := by decide
      rw [hall c hmem] at hdig
      cases hdig

/-! ## A request body written by a client -/

theorem isHex_hexDigit (k : Nat) (hk : k < 16) : isHex (hexDigit k) = true := by
  interval_cases k <;> decide

theorem hexVal_hexDigit (k : Nat) (hk : k < 16) : hexVal (hexDigit k) = k := by
  interval_cases k <;> decide

/-- The characters that `escapeChar` writes as `\u00XX` are below U+0040. -/
theorem escapeChar_u00 (c : Char) (h : c.toNat < 0x20 ∨ c = '<' ∨ c = '>' ∨ c = '&') :
    c.toNat < 64 := by
  rcases h with h | h | h | h
  · omega
  · subst h; decide
  · subst h; decide
  · subst h; decide

theorem unquoteChars_lit (c : Char) (rest : List Char) (h : c ≠ '\\') :
    unquoteChars (c :: rest) 0 = c :: unquoteChars rest 0 := by
  rw [unquoteChars.eq_def]
  simp only [if_neg h]

theorem unquoteChars_esc (c : Char) (rest : List Char) (h : c ≠ 'u') :
    unquoteChars ('\\' :: c :: rest) 0 = unescape c :: unquoteChars rest 0 := by
  rw [unquoteChars.eq_def]
  simp [h]

theorem unquoteChars_u (a b c d : Char) (rest : List Char)
    (h : isSurrogate (hex4 a b c d) = false) :
    unquoteChars ('\\' :: 'u' :: a :: b :: c :: d :: rest) 0 =
      Char.ofNat (hex4 a b c d) :: unquoteChars rest 0 := by
  rw [unquoteChars.eq_def]
  simp [h]

theorem unquoteChars_escapeChar (c : Char) (rest : List Char) :
    unquoteChars (escapeChar c ++ rest) 0 = c :: unquoteChars rest 0 := by
  unfold escapeChar
  by_cases h1 : c = '"'
  · subst h1
    rw [if_pos rfl]
    exact unquoteChars_esc _ _ (by decide)
  by_cases h2 : c = '\\'
  · subst h2
    rw [if_neg h1, if_pos rfl]
    exact unquoteChars_esc _ _ (by decide)
  by_cases h3 : c = Char.ofNat 8
  · subst h3
    rw [if_neg h1, if_neg h2, if_pos rfl]
    exact unquoteChars_esc _ _ (by decide)
  by_cases h4 : c = Char.ofNat 12
  · subst h4
    rw [if_neg h1, if_neg h2, if_neg h3, if_pos rfl]
    exact unquoteChars_esc _ _ (by decide)
  by_cases h5 : c = '\n'
  · subst h5
    rw [if_neg h1, if_neg h2, if_neg h3, if_neg h4, if_pos rfl]
    exact unquoteChars_esc _ _ (by decide)
  by_cases h6 : c = '\r'
  · subst h6
    rw [if_neg h1, if_neg h2, if_neg h3, if_neg h4, if_neg h5, if_pos rfl]
    exact unquoteChars_esc _ _ (by decide)
  by_cases h7 : c = '\t'
  · subst h7
    rw [if_neg h1, if_neg h2, if_neg h3, if_neg h4, if_neg h5, if_neg h6, if_pos rfl]
    exact unquoteChars_esc _ _ (by decide)
  rw [if_neg h1, if_neg h2, if_neg h3, if_neg h4, if_neg h5, if_neg h6, if_neg h7]
  by_cases h8 : (decide (c.toNat < 0x20) || c = '<' || c = '>' || c = '&') = true
  · rw [if_pos h8]
    have h8' : c.toNat < 0x20 ∨ c = '<' ∨ c = '>' ∨ c = '&' := by
      simpa [or_assoc] using h8
    have hlt := escapeChar_u00 c h8'
    have hv : hex4 '0' '0' (hexDigit (c.toNat / 16)) (hexDigit (c.toNat % 16)) = c.toNat := by
      unfold hex4
      rw [hexVal_hexDigit _ (by omega), hexVal_hexDigit _ (by omega)]
      have h0 : hexVal '0' = 0 := by decide
      rw [h0]
      omega
    show unquoteChars ('\\' :: 'u' :: '0' :: '0' :: hexDigit (c.toNat / 16) ::
      hexDigit (c.toNat % 16) :: rest) 0 = _
    rw [unquoteChars_u _ _ _ _ _ (by rw [hv]; unfold isSurrogate; simp; omega), hv,
      Char.ofNat_toNat]
  · rw [if_neg h8]
    by_cases h9 : c = Char.ofNat 0x2028
    · subst h9
      rw [if_pos rfl]
      exact unquoteChars_u _ _ _ _ _ (by decide)
    by_cases h10 : c = Char.ofNat 0x2029
    · subst h10
      rw [if_neg h9, if_pos rfl]
      exact unquoteChars_u _ _ _ _ _ (by decide)
    rw [if_neg h9, if_neg h10]
    exact unquoteChars_lit c rest h2

/-- Unquoting undoes the escaping of the encoder. -/
theorem unquoteChars_escapeChars (cs : List Char) :
    unquoteChars (escapeChars cs) 0 = cs := by
  induction cs with
  | nil => rfl
  | cons c cs ih =>
    rw [escapeChars, unquoteChars_escapeChar, ih]

theorem readValue_cons (stack : List Frame) (lex : Lex) (c : Char) (cs : List Char) :
    readValue stack lex (c :: cs) = resume (step stack lex c) cs := by
  rw [readValue]
  cases step stack lex c <;> rfl

theorem readValue_lit (stack : List Frame) (raw tail : List Char) (c : Char)
    (h1 : c ≠ '"') (h2 : c ≠ '\\') (h3 : ¬ c.toNat < 0x20) :
    readValue stack (.inString raw) (c :: tail) = readValue stack (.inString (c :: raw)) tail := by
  rw [readValue_cons]
  simp only [step, if_neg h1, if_neg h2, if_neg h3, resume]

theorem readValue_esc (stack : List Frame) (raw tail : List Char) (c : Char)
    (h : (c = 'b' || c = 'f' || c = 'n' || c = 'r' || c = 't' || c = '\\' || c = '/' ||
      c = '"') = true) :
    readValue stack (.inString raw) ('\\' :: c :: tail) =
      readValue stack (.inString (c :: '\\' :: raw)) tail := by
  rw [readValue_cons]
  have hs : step stack (.inString raw) '\\' = .next stack (.inStringEsc ('\\' :: raw)) := rfl
  rw [hs]
  simp only [resume]
  rw [readValue_cons]
  simp only [step, if_pos h, resume]

theorem step_escU (stack : List Frame) (raw : List Char) (seen : Nat) (c : Char)
    (h : isHex c = true) (hs : seen < 3) :
    step stack (.inStringEscU raw seen) c = .next stack (.inStringEscU (c :: raw) (seen + 1)) := by
  simp only [step, h, if_true, if_pos hs]

theorem step_escU_last (stack : List Frame) (raw : List Char) (c : Char)
    (h : isHex c = true) :
    step stack (.inStringEscU raw 3) c = .next stack (.inString (c :: raw)) := by
  simp only [step, h, if_true, lt_irrefl, if_false]

theorem readValue_u (stack : List Frame) (raw tail : List Char) (a b c d : Char)
    (ha : isHex a = true) (hb : isHex b = true) (hc : isHex c = true) (hd : isHex d = true) :
    readValue stack (.inString raw) ('\\' :: 'u' :: a :: b :: c :: d :: tail) =
      readValue stack (.inString (d :: c :: b :: a :: 'u' :: '\\' :: raw)) tail := by
  have hs : step stack (.inString raw) '\\' = .next stack (.inStringEsc ('\\' :: raw)) := rfl
  have hu : step stack (.inStringEsc ('\\' :: raw)) 'u' =
      .next stack (.inStringEscU ('u' :: '\\' :: raw) 0) := rfl
  rw [readValue_cons, hs, resume, readValue_cons, hu, resume,
    readValue_cons, step_escU _ _ _ _ ha (by decide), resume,
    readValue_cons, step_escU _ _ _ _ hb (by decide), resume,
    readValue_cons, step_escU _ _ _ _ hc (by decide), resume,
    readValue_cons, step_escU_last _ _ _ hd, resume]

theorem readValue_escapeChar (stack : List Frame) (raw tail : List Char) (c : Char) :
    readValue stack (.inString raw) (escapeChar c ++ tail) =
      readValue stack (.inString ((escapeChar c).reverse ++ raw)) tail := by
  unfold escapeChar
  by_cases h1 : c = '"'
  · subst h1
    rw [if_pos rfl]
    exact readValue_esc _ _ _ _ (by decide)
  by_cases h2 : c = '\\'
  · subst h2
    rw [if_neg h1, if_pos rfl]
    exact readValue_esc _ _ _ _ (by decide)
  by_cases h3 : c = Char.ofNat 8
  · subst h3
    rw [if_neg h1, if_neg h2, if_pos rfl]
    exact readValue_esc _ _ _ _ (by decide)
  by_cases h4 : c = Char.ofNat 12
  · subst h4
    rw [if_neg h1, if_neg h2, if_neg h3, if_pos rfl]
    exact readValue_esc _ _ _ _ (by decide)
  by_cases h5 : c = '\n'
  · subst h5
    rw [if_neg h1, if_neg h2, if_neg h3, if_neg h4, if_pos rfl]
    exact readValue_esc _ _ _ _ (by decide)
  by_cases h6 : c = '\r'
  · subst h6
    rw [if_neg h1, if_neg h2, if_neg h3, if_neg h4, if_neg h5, if_pos rfl]
    exact readValue_esc _ _ _ _ (by decide)
  by_cases h7 : c = '\t'
  · subst h7
    rw [if_neg h1, if_neg h2, if_neg h3, if_neg h4, if_neg h5, if_neg h6, if_pos rfl]
    exact readValue_esc _ _ _ _ (by decide)
  rw [if_neg h1, if_neg h2, if_neg h3, if_neg h4, if_neg h5, if_neg h6, if_neg h7]
  by_cases h8 : (decide (c.toNat < 0x20) || c = '<' || c = '>' || c = '&') = true
  · rw [if_pos h8]
    have h8' : c.toNat < 0x20 ∨ c = '<' ∨ c = '>' ∨ c = '&' := by
      simpa [or_assoc] using h8
    have hlt := escapeChar_u00 c h8'
    exact readValue_u _ _ _ _ _ _ _ (by decide) (by decide)
      (isHex_hexDigit _ (by omega)) (isHex_hexDigit _ (Nat.mod_lt _ (by decide)))
  · rw [if_neg h8]
    have h8' : ¬ c.toNat < 0x20 := by
      intro hlt
      apply h8
      simp [hlt]
    by_cases h9 : c = Char.ofNat 0x2028
    · subst h9
      rw [if_pos rfl]
      exact readValue_u _ _ _ _ _ _ _ (by decide) (by decide) (by decide) (by decide)
    by_cases h10 : c = Char.ofNat 0x2029
    · subst h10
      rw [if_neg h9, if_pos rfl]
      exact readValue_u _ _ _ _ _ _ _ (by decide) (by decide) (by decide) (by decide)
    rw [if_neg h9, if_neg h10]
    exact readValue_lit _ _ _ _ h1 h2 h8'

/-- The scanner on a string that the encoder wrote: it reads up to the closing
quote, and the string it has read is the one that was encoded. -/
theorem readValue_escapeChars (stack : List Frame) (cs raw rest : List Char) :
    readValue stack (.inString raw) (escapeChars cs ++ '"' :: rest) =
      resume (endValue (.str (unquote (raw.reverse ++ escapeChars cs))) stack) rest := by
  induction cs generalizing raw with
  | nil =>
    show readValue stack (.inString raw) ('"' :: rest) = _
    rw [readValue_cons]
    simp [step, escapeChars]
  | cons c cs ih =>
    rw [escapeChars, List.append_assoc, readValue_escapeChar, ih]
    simp

theorem readValue_requestBody (t d : String) :
    readValue [] .beginValue (requestBody t d).data =
      .ok (.obj [("task", .str t), ("deadline", .str d)]) := by
  have hdata : (requestBody t d).data =
      "\x7b\"task\":\"".data ++ (escapeChars t.data ++ '"' ::
        (",\"deadline\":\"".data ++ (escapeChars d.data ++ '"' :: "\x7d".data))) := by
    simp [requestBody, encodeString, String.data_append]
  rw [hdata]
  have h1 : ∀ X, readValue [] .beginValue ("\x7b\"task\":\"".data ++ X) =
      readValue [.objectValue [] "task"] (.inString []) X := fun X => rfl
  rw [h1, readValue_escapeChars]
  simp only [List.reverse_nil, List.nil_append, unquote, unquoteChars_escapeChars]
  have h2 : ∀ (v : JSON) X, resume (endValue v [.objectValue [] "task"])
      (",\"deadline\":\"".data ++ X) =
      readValue [.objectValue [("task", v)] "deadline"] (.inString []) X := fun v X => rfl
  rw [h2, readValue_escapeChars]
  simp only [List.reverse_nil, List.nil_append, unquote, unquoteChars_escapeChars]
  rfl

/-- The object with the members `task` = `t` and `deadline` = `d`, in either
order, decodes to the task `t` and the deadline `d`. -/
theorem unmarshal_task_deadline (t d : String) :
    unmarshal (.obj [("task", .str t), ("deadline", .str d)]) = .ok ⟨0, t, d⟩ ∧
      unmarshal (.obj [("deadline", .str d), ("task", .str t)]) = .ok ⟨0, t, d⟩ := by
  constructor <;>
    simp [unmarshal, storeMembers, lookupField_task, lookupField_deadline, storeField]

/-- C4, as amended: for every task string `t` and deadline string `d` and
every body that is the object `{"task": t, "deadline": d}` (the text a client
writes with the encoder, or any text that the scanner reads as that object,
the two members in either order), after a `SaveTask` that answers 201 to that
body, a `ListTasks` during which the engine fails neither the query nor a step
answers 200 with a JSON array that holds an entry with the task `t`, the
deadline `d` and a positive `id`; the body of the 201 response does not
contain the decimal text of that `id`. -/
theorem c4_round_trip (s : Server) (fault : Option String) (qf : QueryFault)
    (body t d : String)
    (hb : body = requestBody t d ∨
      readValue [] .beginValue body.data = .ok (.obj [("task", .str t), ("deadline", .str d)]) ∨
      readValue [] .beginValue body.data = .ok (.obj [("deadline", .str d), ("task", .str t)]))
    (h201 : (s.SaveTask fault body).1.status = 201)
    (hq : qf.query = none) (hs : qf.step = none) :
    ∃ (id : Int) (tasks : List Task), 0 < id ∧ (⟨id, t, d⟩ : Task) ∈ tasks ∧
      ((s.SaveTask fault body).2.ListTasks qf).1 =
        ⟨200, "[" ++ joinComma (tasks.map encodeTask) ++ "]" ++ "\n"⟩ ∧
      ¬ (formatInt id).data <:+: (s.SaveTask fault body).1.body.data := by
  rw [QueryFault_eq_noFault qf hq hs]
  have hd : decodeTask body = .ok ⟨0, t, d⟩ := by
    rcases hb with h | h | h
    · rw [h, decodeTask_of_value _ _ (readValue_requestBody t d)]
      exact (unmarshal_task_deadline t d).1
    · rw [decodeTask_of_value _ _ h]
      exact (unmarshal_task_deadline t d).1
    · rw [decodeTask_of_value _ _ h]
      exact (unmarshal_task_deadline t d).2
  exact round_trip_of_decode s fault body 0 t d hd h201

/-- C4, as amended, on a table with one row: at the body of the specification
as the encoder writes it, at a spelling of a body with white space, a `\u`
escape and a surrogate pair, and at a body with `deadline` before `task`. -/
theorem c4_round_trip_witness :
    (requestBody "buy milk" "2024-01-01" =
        "\x7b\"task\":\"buy milk\",\"deadline\":\"2024-01-01\"\x7d" ∧
      (((Server.mk ⟨some ⟨[⟨1, "a", "b"⟩], 1⟩⟩).SaveTask none
          (requestBody "buy milk" "2024-01-01")).2.ListTasks noFault).1 =
        ⟨200, "[\x7b\"id\":1,\"task\":\"a\",\"deadline\":\"b\"\x7d," ++
          "\x7b\"id\":2,\"task\":\"buy milk\",\"deadline\":\"2024-01-01\"\x7d]\n"⟩ ∧
      ∃ (id : Int) (tasks : List Task), 0 < id ∧
        (⟨id, "buy milk", "2024-01-01"⟩ : Task) ∈ tasks ∧
        (((Server.mk ⟨some ⟨[⟨1, "a", "b"⟩], 1⟩⟩).SaveTask none
            (requestBody "buy milk" "2024-01-01")).2.ListTasks noFault).1 =
          ⟨200, "[" ++ joinComma (tasks.map encodeTask) ++ "]" ++ "\n"⟩ ∧
        ¬ (formatInt id).data <:+:
          ((Server.mk ⟨some ⟨[⟨1, "a", "b"⟩], 1⟩⟩).SaveTask none
            (requestBody "buy milk" "2024-01-01")).1.body.data) ∧
    (decodeTask " \x7b \"task\" : \"\\ud83d\\ude00 b\\u0075y\" ,\n \"deadline\":\"\\ud83dx\" \x7d trailing" =
        .ok ⟨0, String.mk [Char.ofNat 0x1f600, ' ', 'b', 'u', 'y'],
          String.mk [Char.ofNat 0xfffd, 'x']⟩ ∧
      ∃ (id : Int) (tasks : List Task), 0 < id ∧
        (⟨id, String.mk [Char.ofNat 0x1f600, ' ', 'b', 'u', 'y'],
          String.mk [Char.ofNat 0xfffd, 'x']⟩ : Task) ∈ tasks ∧
        (((Server.mk ⟨some ⟨[⟨1, "a", "b"⟩], 1⟩⟩).SaveTask none
            " \x7b \"task\" : \"\\ud83d\\ude00 b\\u0075y\" ,\n \"deadline\":\"\\ud83dx\" \x7d trailing").2.ListTasks
              noFault).1 =
          ⟨200, "[" ++ joinComma (tasks.map encodeTask) ++ "]" ++ "\n"⟩ ∧
        ¬ (formatInt id).data <:+:
          ((Server.mk ⟨some ⟨[⟨1, "a", "b"⟩], 1⟩⟩).SaveTask none
            " \x7b \"task\" : \"\\ud83d\\ude00 b\\u0075y\" ,\n \"deadline\":\"\\ud83dx\" \x7d trailing").1.body.data) ∧
    (∃ (id : Int) (tasks : List Task), 0 < id ∧ (⟨id, "t", "d"⟩ : Task) ∈ tasks ∧
      (((Server.mk ⟨some ⟨[⟨1, "a", "b"⟩], 1⟩⟩).SaveTask none
          "\x7b\"deadline\":\"d\",\"task\":\"t\"\x7d").2.ListTasks noFault).1 =
        ⟨200, "[" ++ joinComma (tasks.map encodeTask) ++ "]" ++ "\n"⟩ ∧
      ¬ (formatInt id).data <:+:
        ((Server.mk ⟨some ⟨[⟨1, "a", "b"⟩], 1⟩⟩).SaveTask none
          "\x7b\"deadline\":\"d\",\"task\":\"t\"\x7d").1.body.data) :=
  ⟨⟨by decide, by decide,
      c4_round_trip (Server.mk ⟨some ⟨[⟨1, "a", "b"⟩], 1⟩⟩) none noFault
        (requestBody "buy milk" "2024-01-01") "buy milk" "2024-01-01"
        (Or.inl rfl) (by decide) rfl rfl⟩,
    ⟨by decide,
      c4_round_trip (Server.mk ⟨some ⟨[⟨1, "a", "b"⟩], 1⟩⟩) none noFault
        " \x7b \"task\" : \"\\ud83d\\ude00 b\\u0075y\" ,\n \"deadline\":\"\\ud83dx\" \x7d trailing"
        (String.mk [Char.ofNat 0x1f600, ' ', 'b', 'u', 'y']) (String.mk [Char.ofNat 0xfffd, 'x'])
        (Or.inr (Or.inl rfl)) (by decide) rfl rfl⟩,
    c4_round_trip (Server.mk ⟨some ⟨[⟨1, "a", "b"⟩], 1⟩⟩) none noFault
      "\x7b\"deadline\":\"d\",\"task\":\"t\"\x7d" "t" "d"
      (Or.inr (Or.inr rfl)) (by decide) rfl rfl⟩

/-- C4 as stated fails: after a `SaveTask` that answers 201 to the body of the
specification, a `ListTasks` whose query the engine fails answers 500, and a
`ListTasks` whose first step the engine fails answers 200 with the body
`null`; neither holds an entry for the task. -/
theorem c4_counterexample :
    (Server.mk ⟨some ⟨[], 0⟩⟩).SaveTask none
        "\x7b\"task\":\"buy milk\",\"deadline\":\"2024-01-01\"\x7d" =
      (⟨201, "Task saved successfully"⟩,
        Server.mk ⟨some ⟨[⟨1, "buy milk", "2024-01-01"⟩], 1⟩⟩) ∧
    (((Server.mk ⟨some ⟨[], 0⟩⟩).SaveTask none
        "\x7b\"task\":\"buy milk\",\"deadline\":\"2024-01-01\"\x7d").2.ListTasks
          ⟨some "disk I/O error", none⟩).1 =
      ⟨500, "Failed to fetch tasks from database\n"⟩ ∧
    (((Server.mk ⟨some ⟨[], 0⟩⟩).SaveTask none
        "\x7b\"task\":\"buy milk\",\"deadline\":\"2024-01-01\"\x7d").2.ListTasks
          ⟨none, some (0, "database is locked")⟩).1 =
      ⟨200, "null\n"⟩ := by
  decide

/-! ## The field `id` of a request body -/

theorem storeMembers_append (a b : List (String × JSON)) (d : DecodeState) :
    storeMembers (a ++ b) d = storeMembers b (storeMembers a d) := by
  induction a generalizing d with
  | nil => rfl
  | cons m ms ih =>
    obtain ⟨k, v⟩ := m
    show storeMembers ((k, v) :: (ms ++ b)) d = _
    simp only [storeMembers]
    cases lookupField k <;> exact ih _

theorem sameButID_saveError (d1 d2 : DecodeState) (e : DecodeError) (h : sameButID d1 d2) :
    sameButID (saveError d1 e) (saveError d2 e) := by
  obtain ⟨h1, h2, h3⟩ := h
  unfold saveError
  cases he1 : d1.savedError <;> cases he2 : d2.savedError <;>
    simp_all [sameButID]

theorem sameButID_storeField (f : Field) (v : JSON) (d1 d2 : DecodeState)
    (h : sameButID d1 d2) : sameButID (storeField f v d1) (storeField f v d2) := by
  have hs := fun e => sameButID_saveError d1 d2 e h
  obtain ⟨h1, h2, h3⟩ := h
  cases f <;> cases v <;> simp only [storeField] <;>
    first
    | exact ⟨h1, h2, h3⟩
    | exact hs _
    | exact ⟨rfl, h2, h3⟩
    | exact ⟨h1, rfl, h3⟩
    | (split <;> first | exact ⟨h1, h2, h3⟩ | exact hs _)

theorem sameButID_storeMembers (ms : List (String × JSON)) (d1 d2 : DecodeState)
    (h : sameButID d1 d2) : sameButID (storeMembers ms d1) (storeMembers ms d2) := by
  induction ms generalizing d1 d2 with
  | nil => exact h
  | cons m ms ih =>
    obtain ⟨k, v⟩ := m
    simp only [storeMembers]
    cases lookupField k with
    | none => exact ih _ _ h
    | some f => exact ih _ _ (sameButID_storeField f v d1 d2 h)

/-- An accepted value in the field `id` changes nothing but `ID`. -/
theorem sameButID_storeField_id (v : JSON) (d : DecodeState) (hv : acceptedByInt v = true) :
    sameButID (storeField .id v d) d := by
  cases v <;> simp only [acceptedByInt] at hv <;> try cases hv
  · exact ⟨rfl, rfl, rfl⟩
  · rename_i lit
    simp only [storeField]
    cases hp : parseInt lit with
    | none => rw [hp] at hv; cases hv
    | some n => exact ⟨rfl, rfl, rfl⟩

theorem saveError_isSome (d : DecodeState) (e : DecodeError) :
    (saveError d e).savedError.isSome = true := by
  unfold saveError
  cases h : d.savedError <;> simp [h]

theorem storeField_isSome (f : Field) (v : JSON) (d : DecodeState)
    (h : d.savedError.isSome = true) : (storeField f v d).savedError.isSome = true := by
  have hs : ∀ e, (saveError d e).savedError.isSome = true := saveError_isSome d
  cases f <;> cases v <;> simp only [storeField] <;>
    first
    | exact h
    | exact hs _
    | (split <;> first | exact h | exact hs _)

theorem storeMembers_isSome (ms : List (String × JSON)) (d : DecodeState)
    (h : d.savedError.isSome = true) : (storeMembers ms d).savedError.isSome = true := by
  induction ms generalizing d with
  | nil => exact h
  | cons m ms ih =>
    obtain ⟨k, v⟩ := m
    simp only [storeMembers]
    cases lookupField k with
    | none => exact ih _ h
    | some f => exact ih _ (storeField_isSome f v d h)

/-- A value in the field `id` that is not accepted leaves a saved error. -/
theorem storeField_id_rejected (v : JSON) (d : DecodeState) (hv : acceptedByInt v = false) :
    (storeField .id v d).savedError.isSome = true := by
  cases v <;> simp only [acceptedByInt] at hv <;> try cases hv
  all_goals simp only [storeField]
  all_goals try exact saveError_isSome d _
  rename_i lit
  cases hp : parseInt lit with
  | none => exact saveError_isSome d _
  | some n => rw [hp] at hv; cases hv

/-- The answer of `SaveTask` depends on the decoded `Task` through `Task` and
`Deadline` only. -/
theorem unmarshal_obj_sameButID (ms1 ms2 : List (String × JSON)) (s : Server)
    (fault : Option String) (body1 body2 : String)
    (h1 : readValue [] .beginValue body1.data = .ok (.obj ms1))
    (h2 : readValue [] .beginValue body2.data = .ok (.obj ms2))
    (h : sameButID (storeMembers ms1 ⟨⟨0, "", ""⟩, none⟩) (storeMembers ms2 ⟨⟨0, "", ""⟩, none⟩)) :
    s.SaveTask fault body1 = s.SaveTask fault body2 := by
  rw [SaveTask_of_value s fault body1 _ h1, SaveTask_of_value s fault body2 _ h2]
  obtain ⟨ht, hd, he⟩ := h
  simp only [unmarshal]
  rw [he]
  cases hsaved : (storeMembers ms2 ⟨⟨0, "", ""⟩, none⟩).savedError with
  | some e => rfl
  | none =>
    simp only
    rw [ht, hd]

/-- C5, as amended: the same object body with and without a member `id`. When
the value of `id` is `null` or an integer literal in the range of `int`, the
response and the store afterwards (the row, its rowid included) are the same
for both bodies; any other value of `id` gets status 400 and nothing stored. -/
theorem c5_id_field (s : Server) (fault : Option String) (body1 body2 : String)
    (pre post : List (String × JSON)) (v : JSON)
    (h1 : readValue [] .beginValue body1.data = .ok (.obj (pre ++ ("id", v) :: post)))
    (h2 : readValue [] .beginValue body2.data = .ok (.obj (pre ++ post))) :
    (acceptedByInt v = true → s.SaveTask fault body1 = s.SaveTask fault body2) ∧
      (acceptedByInt v = false →
        s.SaveTask fault body1 = (⟨400, "Failed to parse JSON body\n"⟩, s)) := by
  have hsplit : ∀ d, storeMembers (pre ++ ("id", v) :: post) d =
      storeMembers post (storeField .id v (storeMembers pre d)) := by
    intro d
    rw [storeMembers_append]
    simp only [storeMembers, lookupField_id]
  constructor
  · intro hv
    apply unmarshal_obj_sameButID _ _ s fault body1 body2 h1 h2
    rw [hsplit, storeMembers_append]
    exact sameButID_storeMembers post _ _ (sameButID_storeField_id v _ hv)
  · intro hv
    rw [SaveTask_of_value s fault body1 _ h1]
    have hsome := storeMembers_isSome post _ (storeField_id_rejected v
      (storeMembers pre ⟨⟨0, "", ""⟩, none⟩) hv)
    rw [← hsplit] at hsome
    simp only [unmarshal]
    cases hsaved : (storeMembers (pre ++ ("id", v) :: post) ⟨⟨0, "", ""⟩, none⟩).savedError with
    | some e => rfl
    | none => rw [hsaved] at hsome; cases hsome

/-- C5, as amended, at an `id` that is an integer and at an `id` that is a
string, on a table with one row. -/
theorem c5_id_field_witness :
    ((Server.mk ⟨some ⟨[⟨1, "a", "b"⟩], 1⟩⟩).SaveTask none
        "\x7b\"task\":\"x\",\"id\":41,\"deadline\":\"y\"\x7d" =
      (Server.mk ⟨some ⟨[⟨1, "a", "b"⟩], 1⟩⟩).SaveTask none
        "\x7b\"task\":\"x\",\"deadline\":\"y\"\x7d") ∧
    ((Server.mk ⟨some ⟨[⟨1, "a", "b"⟩], 1⟩⟩).SaveTask none
        "\x7b\"task\":\"x\",\"id\":\"41\",\"deadline\":\"y\"\x7d" =
      (⟨400, "Failed to parse JSON body\n"⟩, Server.mk ⟨some ⟨[⟨1, "a", "b"⟩], 1⟩⟩)) :=
  ⟨(c5_id_field (Server.mk ⟨some ⟨[⟨1, "a", "b"⟩], 1⟩⟩) none
      "\x7b\"task\":\"x\",\"id\":41,\"deadline\":\"y\"\x7d"
      "\x7b\"task\":\"x\",\"deadline\":\"y\"\x7d"
      [("task", .str "x")] [("deadline", .str "y")] (.num "41") rfl rfl).1 (by decide),
    (c5_id_field (Server.mk ⟨some ⟨[⟨1, "a", "b"⟩], 1⟩⟩) none
      "\x7b\"task\":\"x\",\"id\":\"41\",\"deadline\":\"y\"\x7d"
      "\x7b\"task\":\"x\",\"deadline\":\"y\"\x7d"
      [("task", .str "x")] [("deadline", .str "y")] (.str "41") rfl rfl).2 (by decide)⟩

/-- C5 as stated fails: a body whose `id` is the string `7` gets 400 and
stores nothing, the same body without `id` gets 201 and stores a row. -/
theorem c5_counterexample :
    readValue [] .beginValue "\x7b\"task\":\"a\",\"deadline\":\"b\",\"id\":\"7\"\x7d".data =
        .ok (.obj [("task", .str "a"), ("deadline", .str "b"), ("id", .str "7")]) ∧
      readValue [] .beginValue "\x7b\"task\":\"a\",\"deadline\":\"b\"\x7d".data =
        .ok (.obj [("task", .str "a"), ("deadline", .str "b")]) ∧
      (Server.mk ⟨some ⟨[], 0⟩⟩).SaveTask none
          "\x7b\"task\":\"a\",\"deadline\":\"b\",\"id\":\"7\"\x7d" =
        (⟨400, "Failed to parse JSON body\n"⟩, Server.mk ⟨some ⟨[], 0⟩⟩) ∧
      (Server.mk ⟨some ⟨[], 0⟩⟩).SaveTask none "\x7b\"task\":\"a\",\"deadline\":\"b\"\x7d" =
        (⟨201, "Task saved successfully"⟩, Server.mk ⟨some ⟨[⟨1, "a", "b"⟩], 1⟩⟩) ∧
      (Server.mk ⟨some ⟨[], 0⟩⟩).SaveTask none
          "\x7b\"task\":\"a\",\"deadline\":\"b\",\"id\":\"7\"\x7d" ≠
        (Server.mk ⟨some ⟨[], 0⟩⟩).SaveTask none "\x7b\"task\":\"a\",\"deadline\":\"b\"\x7d" :=
  ⟨rfl, rfl, by decide, by decide, by decide⟩

/-! ## `ListTasks`: the rows of the response -/

/-- C6: a table with two rows, the engine failing on the step to the second
row (the second `Next` returns false and `Err` holds the error): `ListTasks`
answers 200 with an array that holds the first row only, and no 500. -/
theorem c6_ListTasks_partial_result :
    query ⟨none, some (1, "disk I/O error")⟩ ⟨some ⟨[⟨1, "a", "x"⟩, ⟨2, "b", "y"⟩], 2⟩⟩ =
        .ok ⟨[⟨.int64 1, .string "a", .string "x"⟩], some "disk I/O error"⟩ ∧
      (Server.mk ⟨some ⟨[⟨1, "a", "x"⟩, ⟨2, "b", "y"⟩], 2⟩⟩).ListTasks
          ⟨none, some (1, "disk I/O error")⟩ =
        (⟨200, "[\x7b\"id\":1,\"task\":\"a\",\"deadline\":\"x\"\x7d]\n"⟩,
          Server.mk ⟨some ⟨[⟨1, "a", "x"⟩, ⟨2, "b", "y"⟩], 2⟩⟩) := by
  decide

/-- C7: `ListTasks` on a table, the engine not failing. For the empty table
the body is `null`, which is not a JSON array. For a table with rows the
status is 200, the body is the JSON array of the objects of all the rows, one
for each row and in the order of the rows, and the store is left as it was. -/
theorem c7_ListTasks_all_rows :
    (∀ seq : Nat, (Server.mk ⟨some ⟨[], seq⟩⟩).ListTasks noFault =
        (⟨200, "null" ++ "\n"⟩, Server.mk ⟨some ⟨[], seq⟩⟩)) ∧
      (∀ (r : Row) (rs : List Row) (seq : Nat),
        (Server.mk ⟨some ⟨r :: rs, seq⟩⟩).ListTasks noFault =
          (⟨200, "[" ++ joinComma ((r :: rs).map fun x => encodeTask ⟨x.id, x.task, x.deadline⟩) ++
              "]" ++ "\n"⟩,
            Server.mk ⟨some ⟨r :: rs, seq⟩⟩)) ∧
      readValue [] .beginValue
          ((Server.mk ⟨some ⟨[], 0⟩⟩).ListTasks noFault).1.body.data = .ok .null := by
  refine ⟨fun seq => ?_, fun r rs seq => ?_, ?_⟩
  · rw [ListTasks_noFault]
    rfl
  · rw [ListTasks_noFault]
    simp only [encodeTasks, marshalTasks, List.map_cons, List.map_map]
    rfl
  · rfl

/-! ## The ids of the rows -/

/-- What a `SaveTask` call does to the rows: nothing unless it answers 201,
and then one row more, its id positive and larger than every id in the table. -/
theorem SaveTask_rows (s : Server) (fault : Option String) (body : String) :
    ((s.SaveTask fault body).1.status ≠ 201 ∧ (s.SaveTask fault body).2 = s) ∨
      ((s.SaveTask fault body).1.status = 201 ∧
        ∃ x : Row, (∀ r ∈ s.rows, r.id < x.id) ∧ 0 < x.id ∧
          (s.SaveTask fault body).2.rows = s.rows ++ [x]) := by
  unfold Server.SaveTask
  cases hd : decodeTask body with
  | error e => exact Or.inl ⟨(by decide : (400 : Nat) ≠ 201), rfl⟩
  | ok task =>
    simp only
    cases hi : execInsert fault s.db task.Task task.Deadline with
    | error e => exact Or.inl ⟨(by decide : (500 : Nat) ≠ 201), rfl⟩
    | ok db1 =>
      obtain ⟨tb, v, _, htb, hv, hdb⟩ := execInsert_ok fault s.db db1 _ _ hi
      obtain ⟨hgt, _, hpos⟩ := newRowid_gt tb v hv
      refine Or.inr ⟨rfl, ⟨v, task.Task, task.Deadline⟩, ?_, hpos, ?_⟩
      · intro r hr
        have hrows : s.rows = tb.rows := by
          unfold Server.rows
          rw [htb]
        rw [hrows] at hr
        exact hgt r hr
      · simp only [hdb, Server.rows, htb]

theorem InitializeDB_rows (s : Server) (fault : Option String) :
    (s.InitializeDB fault).2.rows = s.rows := by
  obtain ⟨⟨reqs⟩⟩ := s
  cases fault <;> cases reqs <;> rfl

/-- In every reachable state the rows are in strictly increasing order of
their ids. -/
theorem Reachable_sorted (s : Server) (h : Reachable s) :
    (s.rows.map Row.id).Pairwise (· < ·) := by
  induction h with
  | start => exact List.Pairwise.nil
  | init s fault _ ih =>
    rw [InitializeDB_rows]
    exact ih
  | save s fault body _ ih =>
    rcases SaveTask_rows s fault body with ⟨_, h⟩ | ⟨_, x, hx, _, h⟩
    · rw [h]
      exact ih
    · rw [h, List.map_append, List.pairwise_append]
      refine ⟨ih, by simp, ?_⟩
      intro a ha b hb
      obtain ⟨r, hr, rfl⟩ := List.mem_map.mp ha
      simp only [List.map_cons, List.map_nil, List.mem_singleton] at hb
      rw [hb]
      exact hx r hr

/-- The rows a sequence of `SaveTask` calls adds: one for each 201, with the
ids assigned in call order, which increase and are larger than every id that
was in the table. -/
theorem saveAll_added (calls : List (Option String × String)) (s : Server) :
    ∃ added : List Row, (saveAll s calls).1.rows = s.rows ++ added ∧
      added.map Row.id = assignedIds s calls ∧
      added.length = ((saveAll s calls).2.filter fun r => r.status == 201).length ∧
      (added.map Row.id).Pairwise (· < ·) ∧
      (∀ a ∈ added, ∀ r ∈ s.rows, r.id < a.id) := by
  induction calls generalizing s with
  | nil => exact ⟨[], by simp [saveAll], rfl, rfl, List.Pairwise.nil, by simp⟩
  | cons c cs ih =>
    obtain ⟨fault, body⟩ := c
    obtain ⟨added, hrows, hids, hlen, hpair, hgt⟩ := ih (s.SaveTask fault body).2
    simp only [saveAll, assignedIds]
    rcases SaveTask_rows s fault body with ⟨hst, h⟩ | ⟨hst, x, hx, _, h⟩
    · refine ⟨added, ?_, ?_, ?_, hpair, ?_⟩
      · rw [hrows, h]
      · rw [if_neg hst, hids]
      · rw [hlen, List.filter_cons_of_neg (by simpa using hst)]
      · intro a ha r hr
        rw [h] at hgt
        exact hgt a ha r hr
    · refine ⟨x :: added, ?_, ?_, ?_, ?_, ?_⟩
      · rw [hrows, h]
        simp
      · rw [if_pos hst, h, List.getLast?_append]
        simp [hids]
      · rw [List.filter_cons_of_pos (by simpa using hst)]
        simp [hlen]
      · rw [List.map_cons, List.pairwise_cons]
        refine ⟨?_, hpair⟩
        intro b hb
        obtain ⟨a, ha, rfl⟩ := List.mem_map.mp hb
        exact hgt a ha x (by rw [h]; simp)
      · intro a ha r hr
        rcases List.mem_cons.mp ha with rfl | ha
        · exact hx r hr
        · exact hgt a ha r (by rw [h]; simp [hr])

/-- C8: from a state that `InitializeDB` and `SaveTask` calls reach from the
fresh database, a sequence of `SaveTask` calls adds one row for each call that
answers 201. The ids assigned, in call order, strictly increase, so they are
pairwise distinct; each is larger than, so different from, every id that was
in the table; and no id occurs twice in the table afterwards. -/
theorem c8_ids_distinct_increasing (s : Server) (calls : List (Option String × String))
    (hs : Reachable s) :
    (assignedIds s calls).length =
        ((saveAll s calls).2.filter fun r => r.status == 201).length ∧
      (assignedIds s calls).Pairwise (· < ·) ∧
      (assignedIds s calls).Nodup ∧
      (∀ a ∈ assignedIds s calls, ∀ r ∈ s.rows, r.id < a ∧ a ≠ r.id) ∧
      (saveAll s calls).1.rows.map Row.id = s.rows.map Row.id ++ assignedIds s calls ∧
      ((saveAll s calls).1.rows.map Row.id).Nodup := by
  obtain ⟨added, hrows, hids, hlen, hpair, hgt⟩ := saveAll_added calls s
  have hsorted := Reachable_sorted s hs
  have hall : ((s.rows ++ added).map Row.id).Pairwise (· < ·) := by
    rw [List.map_append, List.pairwise_append]
    refine ⟨hsorted, hpair, ?_⟩
    intro a ha b hb
    obtain ⟨r, hr, rfl⟩ := List.mem_map.mp ha
    obtain ⟨x, hx, rfl⟩ := List.mem_map.mp hb
    exact hgt x hx r hr
  rw [← hids]
  refine ⟨?_, hpair, ?_, ?_, ?_, ?_⟩
  · rw [List.length_map, hlen]
  · exact hpair.imp (fun h => ne_of_lt h)
  · intro a ha r hr
    obtain ⟨x, hx, rfl⟩ := List.mem_map.mp ha
    exact ⟨hgt x hx r hr, ne_of_gt (hgt x hx r hr)⟩
  · rw [hrows, List.map_append]
  · rw [hrows]
    exact hall.imp (fun h => ne_of_lt h)

/-- C8 at three creates after one create on the initialized database: the
first create got the id 1, the three creates get 2, 3 and 4. -/
theorem c8_ids_distinct_increasing_witness :
    Reachable (((fresh.InitializeDB none).2.SaveTask none "\x7b\"task\":\"a\"\x7d").2) ∧
      assignedIds (((fresh.InitializeDB none).2.SaveTask none "\x7b\"task\":\"a\"\x7d").2)
          [(none, "\x7b\"task\":\"b\"\x7d"), (none, "\x7b\"task\":\"c\"\x7d"),
            (none, "\x7b\"task\":\"d\"\x7d")] = [2, 3, 4] ∧
      (saveAll (((fresh.InitializeDB none).2.SaveTask none "\x7b\"task\":\"a\"\x7d").2)
          [(none, "\x7b\"task\":\"b\"\x7d"), (none, "\x7b\"task\":\"c\"\x7d"),
            (none, "\x7b\"task\":\"d\"\x7d")]).1.rows.map Row.id = [1, 2, 3, 4] ∧
      ((assignedIds (((fresh.InitializeDB none).2.SaveTask none "\x7b\"task\":\"a\"\x7d").2)
          [(none, "\x7b\"task\":\"b\"\x7d"), (none, "\x7b\"task\":\"c\"\x7d"),
            (none, "\x7b\"task\":\"d\"\x7d")]).Pairwise (· < ·) ∧
        ((saveAll (((fresh.InitializeDB none).2.SaveTask none "\x7b\"task\":\"a\"\x7d").2)
          [(none, "\x7b\"task\":\"b\"\x7d"), (none, "\x7b\"task\":\"c\"\x7d"),
            (none, "\x7b\"task\":\"d\"\x7d")]).1.rows.map Row.id).Nodup) :=
  ⟨Reachable.save _ none _ (Reachable.init _ none Reachable.start), by decide, by decide,
    (c8_ids_distinct_increasing _ _
      (Reachable.save _ none _ (Reachable.init _ none Reachable.start))).2.1,
    (c8_ids_distinct_increasing _ _
      (Reachable.save _ none _ (Reachable.init _ none Reachable.start))).2.2.2.2.2⟩

/-! ## strconv: `ParseInt` reads what `FormatInt` writes -/

theorem digitChar_toNat (n : Nat) : (digitChar n).toNat - 48 = n % 10 := by
  unfold digitChar
  have h : n % 10 < 10 := Nat.mod_lt _ (by decide)
  generalize n % 10 = m at h
  interval_cases m <;> decide

theorem digitsValue_nil (a : Nat) : digitsValue a [] = a :=
  rfl

theorem digitsValue_cons (a : Nat) (c : Char) (cs : List Char) :
    digitsValue a (c :: cs) = digitsValue (a * 10 + (c.toNat - 48)) cs :=
  rfl

theorem digitsValue_digitChar (a n : Nat) (cs : List Char) :
    digitsValue a (digitChar n :: cs) = digitsValue (a * 10 + n % 10) cs := by
  rw [digitsValue_cons, digitChar_toNat]

/-- The digits that `natDigits` writes have the value `n`, given fuel for all
of them. -/
theorem digitsValue_natDigits (fuel n : Nat) (acc : List Char) (h : n < 10 ^ fuel) :
    digitsValue 0 (natDigits fuel n acc) = digitsValue n acc := by
  induction fuel generalizing n acc with
  | zero =>
    have h0 : n = 0 := by simpa using h
    subst h0
    rfl
  | succ k ih =>
    unfold natDigits
    split
    · rename_i hlt
      rw [digitsValue_digitChar, Nat.mod_eq_of_lt hlt]
      simp
    · rename_i hge
      have hk : n / 10 < 10 ^ k := by
        rw [Nat.div_lt_iff_lt_mul (by decide)]
        rw [pow_succ] at h
        exact h
      rw [ih _ _ hk, digitsValue_digitChar]
      congr 1
      omega

theorem lt_ten_pow_succ (n : Nat) : n < 10 ^ (n + 1) :=
  lt_trans (Nat.lt_pow_self (by decide) n) (Nat.pow_lt_pow_right (by decide) (Nat.lt_succ_self n))

theorem natDigits_all_isDigit (fuel n : Nat) :
    (natDigits (fuel + 1) n []).all isDigit = true := by
  rw [List.all_eq_true]
  exact natDigits_isDigit _ _ [] (by simp)

theorem parseInt_digits (ds : List Char) (hne : ds ≠ []) (hall : ds.all isDigit = true) :
    parseInt (String.mk ds) =
      if digitsValue 0 ds < 2 ^ 63 then some (digitsValue 0 ds : Int) else none := by
  cases ds with
  | nil => exact absurd rfl hne
  | cons c cs =>
    have hc : isDigit c = true := by
      rw [List.all_cons] at hall
      exact (Bool.and_eq_true _ _ ▸ hall).1
    have hplus : c ≠ '+' := by
      intro h
      subst h
      revert hc
      decide
    have hminus : c ≠ '-' := by
      intro h
      subst h
      revert hc
      decide
    unfold parseInt
    have hbody : (match (String.mk (c :: cs)).data with
        | '+' :: ds => ds
        | '-' :: ds => ds
        | ds => ds) = c :: cs := by
      split
      · rename_i heq
        injection heq with h1 _
        exact absurd h1 hplus
      · rename_i heq
        injection heq with h1 _
        exact absurd h1 hminus
      · rfl
    have hneg : (match (String.mk (c :: cs)).data with
        | '-' :: _ => true
        | _ => false) = false := by
      split
      · rename_i heq
        injection heq with h1 _
        exact absurd h1 hminus
      · rfl
    simp only [hbody, hneg, hall]
    simp

/-- `ParseInt` reads back what `FormatInt` writes for a value of `int64`. -/
theorem parseInt_formatInt (v : Int) (hlo : -(2 ^ 63) ≤ v) (hhi : v < 2 ^ 63) :
    parseInt (formatInt v) = some v := by
  cases v with
  | ofNat n =>
    unfold formatInt
    rw [parseInt_digits _ (natDigits_ne_nil n n []) (natDigits_all_isDigit n n),
      digitsValue_natDigits _ _ _ (lt_ten_pow_succ n)]
    have hn : n < 2 ^ 63 := by
      have : (n : Int) < 2 ^ 63 := hhi
      exact_mod_cast this
    have hn2 : n < 9223372036854775808 := by simpa using hn
    rw [digitsValue_nil]
    simp [hn2]
  | negSucc n =>
    unfold formatInt parseInt
    have hall := natDigits_all_isDigit (n + 1) (n + 1)
    have hne := natDigits_ne_nil (n + 1) (n + 1) []
    have hval := digitsValue_natDigits (n + 2) (n + 1) [] (lt_ten_pow_succ (n + 1))
    rw [digitsValue_nil] at hval
    have hn : n + 1 ≤ 2 ^ 63 := by
      have h1 : -(2 ^ 63 : Int) ≤ Int.negSucc n := hlo
      rw [Int.negSucc_eq] at h1
      have h2 : ((n : Int) + 1) ≤ 2 ^ 63 := by omega
      exact_mod_cast h2
    simp only [hall, hval]
    cases hd : natDigits (n + 1 + 1) (n + 1) [] with
    | nil => exact absurd hd hne
    | cons c cs =>
      have hn2 : n + 1 ≤ 9223372036854775808 := by simpa using hn
      simp [hn2, Int.negSucc_eq]

end GoToDo
